import Mathlib

/-!
Verification development for the templatetk repository (snapshot under review).

The definitions below are shallow embeddings of the Python sources:
  * `templatetk/nodes.py`        — the ATST node model (the subset the claims exercise)
  * `templatetk/interpreter.py`  — the reference interpreter
  * `templatetk/idtracking.py`   — identifier tracking and the identifier manager
  * `templatetk/fstate.py`       — frame state, required lookups, scope resolution
  * `templatetk/asttransform.py` — the host-AST lowering backend
  * `templatetk/bcinterp.py`     — runtime helpers for the compiled code

Python dictionaries are modelled as association lists with in-place update,
Python exceptions as an `Except` monad, and generator output as lists of
chunks.  Recursive tree walks carry an explicit fuel argument (a `Nat`) so
that every definition is executable and reduces definitionally; concrete
runs use a fuel that is far larger than the recursion depth ever reached.
-/

namespace TTK

/-- Python exception classes that the embedded code can raise.
`templateNotFound`/`templatesNotFound` mirror `templatetk/exceptions.py`
(`TemplatesNotFound` is a subclass of `TemplateNotFound`); the rest are
builtin Python exception classes.  `fuelOut` is an artifact of the fuel
discipline and is never produced in any run appearing in a theorem. -/
inductive Err where
  | typeError : Err
  | valueError : Err
  | keyError : Err
  | indexError : Err
  | assertionError : Err
  | nameError : String → Err
  | attributeError : String → Err
  | templateNotFound : String → Err
  | templatesNotFound : List String → Err
  | notImplementedError : Err
  | fuelOut : Err
  deriving DecidableEq, Repr

/-- `except TemplateNotFound` in Python catches the class and its subclass
`TemplatesNotFound` (exceptions.py lines 17-28). -/
def Err.isTemplateNotFound : Err → Bool
  | .templateNotFound _ => true
  | .templatesNotFound _ => true
  | _ => false

/-- Runtime values of the embedded Python subset.  `vundef` is the default
`Undefined` sentinel from `config.py`; `vhostobj` stands for host objects the
claims never inspect (loop contexts, the config object). -/
inductive Value where
  | vint : Int → Value
  | vstr : String → Value
  | vbool : Bool → Value
  | vnone : Value
  | vlist : List Value → Value
  | vtuple : List Value → Value
  | vundef : String → Value
  | vhostobj : String → Value
  deriving Repr

/-- Python truthiness of a value.  A bare `Undefined()` instance (and any
other plain object) is truthy in Python. -/
def Value.truthy : Value → Bool
  | .vint n => n ≠ 0
  | .vstr s => s ≠ ""
  | .vbool b => b
  | .vnone => false
  | .vlist l => !l.isEmpty
  | .vtuple l => !l.isEmpty
  | .vundef _ => true
  | .vhostobj _ => true

/-- `iter(value)` for the embedded values: lists and tuples yield their
items, strings their characters, everything else raises `TypeError`. -/
def Value.toIterable : Value → Except Err (List Value)
  | .vlist l => .ok l
  | .vtuple l => .ok l
  | .vstr s => .ok (s.data.map fun c => Value.vstr (String.mk [c]))
  | _ => .error .typeError

/-- `unicode(value)` for the values the concrete runs render.  Modelled from
the spec: `config.to_unicode` is called by the interpreter (interpreter.py
line 237) but is absent from the `Config` in this snapshot's `config.py`;
the spec (section 6) lists `to_unicode`/`finalize(value, autoescape)` among
the configuration contract, converting a value to its unicode text. -/
def pyUnicode : Value → String
  | .vint n => n.repr
  | .vstr s => s
  | .vbool b => if b then "True" else "False"
  | .vnone => "None"
  | .vundef _ => "Undefined"
  | .vhostobj t => t
  | .vlist _ => "<list>"
  | .vtuple _ => "<tuple>"

/- Association lists with Python-dict update semantics. -/

/-- First-match lookup (a Python dict holds one entry per key). -/
def alGet {α : Type} : List (String × α) → String → Option α
  | [], _ => none
  | (k, v) :: rest, key => if k = key then some v else alGet rest key

/-- `d[k] = v`: replace the entry in place when the key exists, append
otherwise (insertion-order model of a Python dict). -/
def alInsert {α : Type} : List (String × α) → String → α → List (String × α)
  | [], key, v => [(key, v)]
  | (k, w) :: rest, key, v =>
      if k = key then (key, v) :: rest else (k, w) :: alInsert rest key v

/-- `d.update(pairs)`: insert every pair in order, later pairs winning. -/
def alUpdate {α : Type} (base : List (String × α)) (upd : List (String × α)) :
    List (String × α) :=
  upd.foldl (fun acc p => alInsert acc p.1 p.2) base

/-- Membership of a key. -/
def alHas {α : Type} (l : List (String × α)) (key : String) : Bool :=
  (alGet l key).isSome

/-- Templates handed out by the template loader; for the claims only their
identity matters, so a template reference is its name. -/
def TmplRef := String

/-- The pluggable configuration object (`config.py`, class `Config`),
restricted to the policy points the claims exercise.  Boolean defaults are
those of `Config.__init__`.  `to_unicode` and `finalize` are modelled from
the spec (section 6) because this snapshot's `config.py`/`runtime.py` miss
them although `interpreter.py` line 237 and the lowered code call them.
`get_or_select_template` and `yield_from_template` stand for the template
loading collaborators (`runtime.RuntimeInfo.get_template`,
`Config.yield_from_template`); the defaults raise `NotImplementedError`
exactly like the base `Config`. -/
structure TKConfig where
  strict_tuple_unpacking : Bool := false
  allow_noniter_unpacking : Bool := false
  forloop_parent_access : Bool := true
  forloop_accessor : String := "loop"
  undefined_variable : String → Value := Value.vundef
  to_unicode : Value → String := pyUnicode
  finalize : Value → String := pyUnicode
  wrap_loop : Value → Value → Except Err (List (Value × Value)) :=
    fun v _ => (Value.toIterable v).map (List.map fun it => (it, Value.vhostobj "loopctx"))
  get_or_select_template : Value → Except Err TmplRef :=
    fun _ => .error .notImplementedError
  yield_from_template : TmplRef → Except Err (List String) :=
    fun _ => .error .notImplementedError

/-- The `ctx` field of `Name` and `Tuple` nodes (`nodes.py`). -/
inductive NCtx where
  | load : NCtx
  | store : NCtx
  | param : NCtx
  deriving DecidableEq, Repr

/-- The ATST node subset exercised by the claims (`nodes.py`).  `else_`
fields are `Option (List Node)` because the Python code distinguishes
`None` from an empty list (`interpreter.py` checks `is not None`,
`asttransform.py` checks truthiness). -/
inductive Node where
  | template : List Node → Node
  | output : List Node → Node
  | if_ : Node → List Node → Option (List Node) → Node
  | for_ : Node → Node → List Node → Option (List Node) → Node
  | assign : Node → Node → Node
  | name : String → NCtx → Node
  | const : Value → Node
  | tuple : List Node → NCtx → Node
  | and_ : Node → Node → Node
  | include_ : Node → Bool → Node
  deriving Repr

/- `Expr.can_assign` from `nodes.py` (`Name.can_assign` rejects non-store
contexts and the boolean/none literals, `Tuple.can_assign` requires all
items assignable, every other node kind refuses). -/
mutual

def Node.can_assign : Node → Bool
  | .name nm ctx =>
      ctx = NCtx.store &&
        !(nm = "true" || nm = "false" || nm = "none" ||
          nm = "True" || nm = "False" || nm = "None")
  | .tuple items ctx => ctx = NCtx.store && Node.can_assign_list items
  | _ => false

def Node.can_assign_list : List Node → Bool
  | [] => true
  | n :: rest => n.can_assign && Node.can_assign_list rest

end

/-- The `ctx` attribute access `node.target.ctx`; nodes without the field
raise `AttributeError` in Python. -/
def Node.ctxOf : Node → Option NCtx
  | .name _ ctx => some ctx
  | .tuple _ ctx => some ctx
  | _ => none

/-- `interpreter.BasicInterpreterState`: a stack of mapping frames (head is
the top, i.e. Python's `context[-1]`), the height the stack had right after
construction (used for the `ctx is self.toplevel` identity test), and the
export map fed by toplevel assignments (`info.exports` is modelled here;
the attribute is referenced by `interpreter.py` line 150 but missing from
this snapshot's `RuntimeInfo`). -/
structure IState where
  frames : List (List (String × Value))
  baseHeight : Nat
  exports : List (String × Value)

/-- `BasicInterpreterState.__init__` with a `vars` mapping: the context is
`[vars]` plus one pushed empty frame which becomes `toplevel`. -/
def IState.make (vars : List (String × Value)) : IState :=
  { frames := [[], vars], baseHeight := 2, exports := [] }

def IState.push_frame (st : IState) : IState :=
  { st with frames := [] :: st.frames }

def IState.pop_frame (st : IState) : IState :=
  { st with frames := st.frames.tail }

/-- `__getitem__`: scan the frame stack from the top down. -/
def IState.getItem (st : IState) (key : String) : Option Value :=
  go st.frames
where
  go : List (List (String × Value)) → Option Value
    | [] => none
    | f :: rest => match alGet f key with
      | some v => some v
      | none => go rest

/-- `resolve_var`: `__getitem__` with the configured undefined fallback. -/
def IState.resolve_var (cfg : TKConfig) (st : IState) (key : String) : Value :=
  match st.getItem key with
  | some v => v
  | none => cfg.undefined_variable key

/-- `assign_var`: write into the top frame; when the top frame is the
toplevel frame (stack back at its initial height) also export. -/
def IState.assign_var (st : IState) (key : String) (v : Value) : IState :=
  match st.frames with
  | [] => st
  | f :: rest =>
      { st with
        frames := alInsert f key v :: rest,
        exports :=
          if st.frames.length = st.baseHeight then alInsert st.exports key v
          else st.exports }

/- Reference interpreter (`interpreter.py`, class `Interpreter`).  Statement
visitors yield unicode chunks; expression visitors return values.  Node
dispatch follows the per-kind visitor methods; the generic fallback
recursion is that of the (missing) `nodeutils.NodeVisitor`, modelled from
the spec (section 9: one visitor method per tagged node type). -/

mutual

/-- Expression evaluation: `visit_Name` (line 291, asserts a load context),
`visit_Const` (line 313), `visit_Tuple` (line 319), `visit_And`
(lines 354-358, returning the constant `False` on a falsy left operand). -/
def evalExpr (fuel : Nat) (cfg : TKConfig) (st : IState) : Node → Except Err Value
  | .const v => .ok v
  | .name nm ctx =>
      if ctx = NCtx.load then .ok (st.resolve_var cfg nm) else .error .assertionError
  | .tuple items ctx =>
      if ctx = NCtx.load then
        match fuel with
        | 0 => .error .fuelOut
        | k + 1 => (evalExprList k cfg st items).map Value.vtuple
      else .error .assertionError
  | .and_ l r =>
      match fuel with
      | 0 => .error .fuelOut
      | k + 1 => do
          let v ← evalExpr k cfg st l
          if v.truthy then evalExpr k cfg st r else pure (Value.vbool false)
  | _ => .error .assertionError

def evalExprList (fuel : Nat) (cfg : TKConfig) (st : IState) :
    List Node → Except Err (List Value)
  | [] => .ok []
  | n :: rest =>
      match fuel with
      | 0 => .error .fuelOut
      | k + 1 => do
          let v ← evalExpr k cfg st n
          let vs ← evalExprList k cfg st rest
          pure (v :: vs)

end

mutual

/-- `assign_to_state` (interpreter.py lines 41-69): dispatch over the target
class (`KeyError` for unregistered classes), the `can_assign` assertion, and
the `_assign_name`/`_assign_tuple` helpers.  `_assign_tuple` converts the
value with `tuple(...)` (`TypeError` tolerated only under
`allow_noniter_unpacking`, in which case nothing is assigned), raises
`ValueError` on a length mismatch under `strict_tuple_unpacking`, and
otherwise zips the targets with the items. -/
def assign_to_state (fuel : Nat) (cfg : TKConfig) (target : Node) (v : Value)
    (st : IState) : Except Err IState :=
  match target with
  | .name nm _ =>
      if target.can_assign then .ok (st.assign_var nm v) else .error .assertionError
  | .tuple items _ =>
      if target.can_assign then
        match v.toIterable with
        | .error _ =>
            if cfg.allow_noniter_unpacking then .ok st else .error .typeError
        | .ok values =>
            if cfg.strict_tuple_unpacking ∧ values.length ≠ items.length then
              .error .valueError
            else
              match fuel with
              | 0 => .error .fuelOut
              | k + 1 => assignPairs k cfg items values st
      else .error .assertionError
  | _ => .error .keyError

def assignPairs (fuel : Nat) (cfg : TKConfig) (targets : List Node)
    (values : List Value) (st : IState) : Except Err IState :=
  match targets, values with
  | [], _ => .ok st
  | _, [] => .ok st
  | t :: ts, v :: vs =>
      match fuel with
      | 0 => .error .fuelOut
      | k + 1 => do
          let st' ← assign_to_state k cfg t v st
          assignPairs k cfg ts vs st'

end

/-- `visit_Output` (interpreter.py lines 235-237): one chunk per child,
passed through `config.to_unicode`. -/
def outputChunks (fuel : Nat) (cfg : TKConfig) (st : IState) :
    List Node → Except Err (List String)
  | [] => .ok []
  | n :: rest =>
      match fuel with
      | 0 => .error .fuelOut
      | k + 1 => do
          let v ← evalExpr k cfg st n
          let cs ← outputChunks k cfg st rest
          pure (cfg.to_unicode v :: cs)

mutual

/-- Statement execution, one arm per interpreter visitor:
`visit_Template` (line 229), `visit_Output` (line 235), `visit_For`
(lines 239-264), `visit_If` (lines 272-283, the frame is pushed around the
chosen branch only after the test was evaluated), `visit_Assign`
(lines 285-289), `visit_Include` (lines 439-450, suppressing only
`TemplateNotFound` and only under `ignore_missing`).  Statement visitors
return the yielded chunks plus the updated interpreter state. -/
def execStmt (fuel : Nat) (cfg : TKConfig) : Node → IState →
    Except Err (List String × IState)
  | .template body, st =>
      match fuel with
      | 0 => .error .fuelOut
      | k + 1 => visit_block k cfg body st
  | .output nodes, st =>
      match fuel with
      | 0 => .error .fuelOut
      | k + 1 => (outputChunks k cfg st nodes).map fun cs => (cs, st)
  | .if_ test body else_, st =>
      match fuel with
      | 0 => .error .fuelOut
      | k + 1 => do
          let t ← evalExpr k cfg st test
          let branch := if t.truthy then body else else_.getD []
          let (out, st₂) ← visit_block k cfg branch st.push_frame
          pure (out, st₂.pop_frame)
  | .for_ target iterE body else_, st =>
      match fuel with
      | 0 => .error .fuelOut
      | k + 1 => do
          let parent :=
            if cfg.forloop_parent_access then st.resolve_var cfg cfg.forloop_accessor
            else Value.vnone
          let itv ← evalExpr k cfg st iterE
          let pairs ← cfg.wrap_loop itv parent
          let (out, st₂) ← execLoopBody k cfg target body pairs st.push_frame
          let st₃ := st₂.pop_frame
          if pairs.isEmpty then
            match else_ with
            | some es => do
                let (out₂, st₄) ← visit_block k cfg es st₃.push_frame
                pure (out ++ out₂, st₄.pop_frame)
            | none => pure (out, st₃)
          else pure (out, st₃)
  | .assign target node, st =>
      match fuel with
      | 0 => .error .fuelOut
      | k + 1 =>
          match target.ctxOf with
          | none => .error (.attributeError "ctx")
          | some c =>
              if c = NCtx.store then do
                let v ← evalExpr k cfg st node
                let st' ← assign_to_state k cfg target v st
                pure ([], st')
              else .error .assertionError
  | .include_ tmplE ignore_missing, st =>
      match fuel with
      | 0 => .error .fuelOut
      | k + 1 => do
          let nameV ← evalExpr k cfg st tmplE
          match cfg.get_or_select_template nameV with
          | .error e =>
              if e.isTemplateNotFound then
                if ignore_missing then pure ([], st) else .error e
              else .error e
          | .ok t => do
              let chunks ← cfg.yield_from_template t
              pure (chunks, st)
  | .name _ _, _ => .error .assertionError
  | .const _, _ => .error .assertionError
  | .tuple _ _, _ => .error .assertionError
  | .and_ _ _, _ => .error .assertionError

/-- `visit_block` (interpreter.py lines 217-223). -/
def visit_block (fuel : Nat) (cfg : TKConfig) : List Node → IState →
    Except Err (List String × IState)
  | [], st => .ok ([], st)
  | n :: rest, st =>
      match fuel with
      | 0 => .error .fuelOut
      | k + 1 => do
          let (out₁, st₁) ← execStmt k cfg n st
          let (out₂, st₂) ← visit_block k cfg rest st₁
          pure (out₁ ++ out₂, st₂)

/-- The loop of `visit_For`: each iteration stores the loop context under
the forloop accessor, unpacks the item into the target, and runs the body. -/
def execLoopBody (fuel : Nat) (cfg : TKConfig) (target : Node) (body : List Node) :
    List (Value × Value) → IState → Except Err (List String × IState)
  | [], st => .ok ([], st)
  | (item, loopstate) :: rest, st =>
      match fuel with
      | 0 => .error .fuelOut
      | k + 1 => do
          let st₁ := st.assign_var cfg.forloop_accessor loopstate
          let st₂ ← assign_to_state k cfg target item st₁
          let (out₁, st₃) ← visit_block k cfg body st₂
          let (out₂, st₄) ← execLoopBody k cfg target body rest st₃
          pure (out₁ ++ out₂, st₄)

end

/-- Run a template under the reference interpreter with an input variable
mapping, returning the yielded chunks (the lazy pull-sequence, fully
consumed). -/
def interpRun (cfg : TKConfig) (fuel : Nat) (t : Node)
    (vars : List (String × Value)) : Except Err (List String) :=
  (execStmt fuel cfg t (IState.make vars)).map (·.1)

/-- `idtracking.IdentManager` (idtracking.py lines 79-114): a counter-based
generator of identifier strings, starting at index 1.  Operations return the
produced string together with the updated manager. -/
structure IdentManager where
  index : Nat := 1
  short_ids : Bool := false
  deriving Repr

def IdentManager.next_num (m : IdentManager) : Nat × IdentManager :=
  (m.index, { m with index := m.index + 1 })

/-- `encode(name, suffix=0)`: with short ids a fresh `l<n>` drawing from the
counter; otherwise the deterministic `l_<name>_<suffix>` which does *not*
touch the counter. -/
def IdentManager.encode (m : IdentManager) (name : String) (suffix : Nat) :
    String × IdentManager :=
  if m.short_ids then
    let (n, m') := m.next_num
    ("l" ++ Nat.repr n, m')
  else
    ("l_" ++ name ++ "_" ++ Nat.repr suffix, m)

/-- `override(name)`: `encode(name, next_num())`. -/
def IdentManager.override (m : IdentManager) (name : String) :
    String × IdentManager :=
  let (num, m₁) := m.next_num
  m₁.encode name num

/-- `temporary()`: `t<n>`. -/
def IdentManager.temporary (m : IdentManager) : String × IdentManager :=
  let (n, m') := m.next_num
  ("t" ++ Nat.repr n, m')

/- Host-language (Python) AST fragments the lowering backend emits for the
node subset exercised by the claims (`asttransform.py`). -/

/-- Lowered expressions: numbers and strings (`ast.Num`/`ast.Str`), name
loads, the `rtstate.lookup_var("...")` call, the `rtstate.info.finalize(...)`
call, `ast.BoolOp` (the flag is `true` for `and`), tuple/list displays and
the `rtstate.config` attribute read from the root preamble. -/
inductive PyExpr where
  | pnum : Int → PyExpr
  | pstr : String → PyExpr
  | pname : String → PyExpr
  | plookupVar : String → PyExpr
  | pfinalize : PyExpr → PyExpr
  | pboolop : Bool → PyExpr → PyExpr → PyExpr
  | ptuple : List PyExpr → PyExpr
  | plist : List PyExpr → PyExpr
  | prtsConfig : PyExpr
  deriving Repr

/-- Lowered statements: assignments, `ast.Expr(ast.Yield(e))`, the
`rtstate.export_var(...)` statement appended for root assignments,
`ast.If`, the buffered-output `buffer.append(...)` call and `pass`. -/
inductive PyStmt where
  | passign : String → PyExpr → PyStmt
  | pexprYield : PyExpr → PyStmt
  | pexportVar : String → PyExpr → PyStmt
  | pif : PyExpr → List PyStmt → List PyStmt → PyStmt
  | pbufferAppend : String → PyExpr → PyStmt
  | ppass : PyStmt
  deriving Repr

/-- Frame scope kinds (`fstate.py` line 19). -/
inductive SKind where
  | soft : SKind
  | hard : SKind
  deriving DecidableEq, Repr

/-- `fstate.FrameState` (fstate.py lines 15-59).  Frames live in an arena
(`CState.frames`) and reference each other by index; `parent` and
`inner_frames` hold indices.  The `nodes`/`unassigned_until` bookkeeping
(used only by `iter_vars`/`var_unassigned`, which no claim touches) is not
modelled. -/
structure FrameState where
  scope : SKind := .soft
  parent : Option Nat := none
  root : Bool := false
  local_identifiers : List (String × String) := []
  from_outer_scope : List String := []
  referenced_identifiers : List (String × String) := []
  required_aliases : List (String × String) := []
  requires_lookup : List (String × String) := []
  inner_frames : List Nat := []
  inner_functions : List (List PyStmt) := []
  buffer : Option String := none
  deriving Repr

/-- Compilation state: the frame arena plus the shared identifier manager
owned by the lowering pass. -/
structure CState where
  frames : List FrameState
  im : IdentManager
  deriving Repr

def CState.setFrame (cs : CState) (i : Nat) (f : FrameState) : CState :=
  { cs with frames := cs.frames.set i f }

def CState.updFrame (cs : CState) (i : Nat) (g : FrameState → FrameState) : CState :=
  match cs.frames[i]? with
  | some f => cs.setFrame i (g f)
  | none => cs

/-- `FrameState.derive` (fstate.py lines 61-65): create a child frame linked
to its parent and, when recording, register it among the parent's inner
frames. -/
def deriveFrame (cs : CState) (pidx : Nat) (scope : SKind) (record : Bool) :
    CState × Nat :=
  let idx := cs.frames.length
  let child : FrameState := { scope := scope, parent := some pidx }
  let cs₁ := { cs with frames := cs.frames ++ [child] }
  let cs₂ :=
    if record then
      cs₁.updFrame pidx fun f => { f with inner_frames := f.inner_frames ++ [idx] }
    else cs₁
  (cs₂, idx)

/-- `IdentManager.iter_identifier_maps` (idtracking.py lines 105-111) with
`stop_at_hard=True`: the chain of frame indices from `idx` towards the root,
stopping right after a hard-scoped frame.  The fuel is the arena size, which
bounds any parent chain. -/
def identChain (cs : CState) : Nat → Nat → List Nat
  | 0, _ => []
  | fuel + 1, idx =>
      match cs.frames[idx]? with
      | none => []
      | some f =>
          idx ::
            (if f.scope = SKind.hard then []
             else match f.parent with
               | some p => identChain cs fuel p
               | none => [])

def CState.chain (cs : CState) (idx : Nat) : List Nat :=
  identChain cs (cs.frames.length + 1) idx

/-- The search performed by the loop in `IdentTracker.visit_Name`
(idtracking.py lines 26-37): the first frame along the identifier-map chain
whose `local_identifiers` binds the name, together with the bound id. -/
def findIdent (cs : CState) (start : Nat) (nm : String) : Option (Nat × String) :=
  go (cs.chain start)
where
  go : List Nat → Option (Nat × String)
    | [] => none
    | i :: rest =>
        match cs.frames[i]? with
        | some f =>
            match alGet f.local_identifiers nm with
            | some lid => some (i, lid)
            | none => go rest
        | none => go rest

/-- `IdentTracker.visit_Name` (idtracking.py lines 21-52), acting on the
frame `fidx`: resolve the name along the chain; a hit in an outer frame
marks `from_outer_scope`, and for a non-load context additionally mints a
fresh alias via `override` recorded in `required_aliases`; a miss mints via
`encode`; the trailing common updates fill `local_identifiers`,
`requires_lookup` and `referenced_identifiers` exactly as in the source. -/
def visit_Name (cs : CState) (fidx : Nat) (nm : String) (ctx : NCtx) : CState :=
  let found := findIdent cs fidx nm
  let res : String × Bool × Bool × Option (String × String) × IdentManager :=
    match found with
    | some (gidx, oldId) =>
        if gidx ≠ fidx then
          if ctx ≠ NCtx.load then
            let (newId, im₁) := cs.im.override nm
            (newId, true, true, some (newId, oldId), im₁)
          else (oldId, true, true, none, cs.im)
        else (oldId, true, false, none, cs.im)
    | none =>
        let (newId, im₁) := cs.im.encode nm 0
        (newId, false, false, none, im₁)
  let (lid, reused, fromOuter, aliasPair, im') := res
  { cs with im := im' }.updFrame fidx fun f =>
    let f := match aliasPair with
      | some (n, o) => { f with required_aliases := alInsert f.required_aliases n o }
      | none => f
    let f :=
      if ctx ≠ NCtx.load ∨ !reused then
        { f with local_identifiers := alInsert f.local_identifiers nm lid }
      else f
    let f :=
      if ctx = NCtx.load ∧ !reused then
        { f with requires_lookup := alInsert f.requires_lookup lid nm }
      else f
    let f := { f with referenced_identifiers := alInsert f.referenced_identifiers nm lid }
    if fromOuter then
      { f with from_outer_scope :=
          if nm ∈ f.from_outer_scope then f.from_outer_scope
          else f.from_outer_scope ++ [nm] }
    else f

/-- `Node.iter_child_nodes` order (field order of each node kind). -/
def Node.childrenOf : Node → List Node
  | .template body => body
  | .output nodes => nodes
  | .if_ t b e => t :: b ++ e.getD []
  | .for_ t i b e => t :: i :: b ++ e.getD []
  | .assign t n => [t, n]
  | .name _ _ => []
  | .const _ => []
  | .tuple items _ => items
  | .and_ l r => [l, r]
  | .include_ t _ => [t]

mutual

/-- `IdentTracker.visit` dispatch: `visit_Name` as above; `visit_For`
(idtracking.py line 54) tracks only the iterable; `visit_If` (line 57)
tracks only the test.  Every other node kind falls back to the generic
child-visiting recursion of the `NodeVisitor` base class.  Modelled from
the spec: `nodeutils.py` (the `NodeVisitor` base) is absent from this
snapshot's sources; per the spec (sections 4.1 and 9) the fallback visits
every child node once, in field order. -/
def trackNode (fuel : Nat) (cs : CState) (fidx : Nat) : Node → CState
  | .name nm ctx => visit_Name cs fidx nm ctx
  | .for_ _ iterE _ _ =>
      match fuel with
      | 0 => cs
      | k + 1 => trackNode k cs fidx iterE
  | .if_ test _ _ =>
      match fuel with
      | 0 => cs
      | k + 1 => trackNode k cs fidx test
  | n =>
      match fuel with
      | 0 => cs
      | k + 1 => trackList k cs fidx n.childrenOf

def trackList (fuel : Nat) (cs : CState) (fidx : Nat) : List Node → CState
  | [] => cs
  | n :: rest =>
      match fuel with
      | 0 => cs
      | k + 1 => trackList k (trackNode k cs fidx n) fidx rest

end

/-- `FrameState.analyze_identfiers` (fstate.py lines 67-71, source spelling
kept): track every node of the sequence against the frame. -/
def analyze_identfiers (fuel : Nat) (cs : CState) (fidx : Nat)
    (nodes : List Node) : CState :=
  trackList fuel cs fidx nodes

/-- `FrameState.iter_inner_referenced_vars` (fstate.py lines 101-112): for
each *direct* inner frame, the `(local_id, source_name)` pairs of names the
inner frame referenced from an outer scope, with alias ids mapped back
through that frame's `required_aliases`. -/
def iter_inner_referenced_vars (cs : CState) (fidx : Nat) :
    List (String × String) :=
  match cs.frames[fidx]? with
  | none => []
  | some f =>
      f.inner_frames.flatMap fun ci =>
        match cs.frames[ci]? with
        | none => []
        | some cf =>
            cf.referenced_identifiers.filterMap fun p =>
              if p.1 ∈ cf.from_outer_scope then
                some ((alGet cf.required_aliases p.2).getD p.2, p.1)
              else none

/-- `FrameState.iter_required_lookups` (fstate.py lines 139-143): a dict of
the frame's own `requires_lookup` updated with
`iter_inner_referenced_vars`. -/
def iter_required_lookups (cs : CState) (fidx : Nat) : List (String × String) :=
  match cs.frames[fidx]? with
  | none => []
  | some f => alUpdate f.requires_lookup (iter_inner_referenced_vars cs fidx)

/-- The dummy generator guard `if 0: yield 0` appended for unbuffered
frames (asttransform.py lines 231-234). -/
def dummyYieldStmt : PyStmt :=
  PyStmt.pif (PyExpr.pnum 0) [PyStmt.pexprYield (PyExpr.pnum 0)] []

/-- `ASTTransformer.inject_scope_code` (asttransform.py lines 208-235): the
prologue accumulated by three appending loops — alias assignments, deferred
inner function definitions, runtime-context lookups — spliced before the
body, plus the dummy yield for unbuffered frames. -/
def inject_scope_code (cs : CState) (fidx : Nat) (body : List PyStmt) :
    List PyStmt :=
  match cs.frames[fidx]? with
  | none => body
  | some f =>
      let before :=
        f.required_aliases.foldl
          (fun acc p => acc ++ [PyStmt.passign p.1 (PyExpr.pname p.2)]) []
      let before := f.inner_functions.foldl (fun acc fn => acc ++ fn) before
      let before :=
        (iter_required_lookups cs fidx).foldl
          (fun acc p => acc ++ [PyStmt.passign p.1 (PyExpr.plookupVar p.2)]) before
      let dummy := if f.buffer = none then [dummyYieldStmt] else []
      before ++ body ++ dummy

/-- `FrameState.lookup_name` (fstate.py lines 123-137): resolve along the
chain; storing through a map that is not the frame's own raises the
internal-consistency `AssertionError`, as does a miss. -/
def lookup_name (cs : CState) (fidx : Nat) (nm : String) (ctx : NCtx) :
    Except Err String :=
  go (cs.chain fidx)
where
  go : List Nat → Except Err String
    | [] => .error .assertionError
    | i :: rest =>
        match cs.frames[i]? with
        | some f =>
            match alGet f.local_identifiers nm with
            | some lid =>
                if ctx ≠ NCtx.load ∧ i ≠ fidx then .error .assertionError
                else .ok lid
            | none => go rest
        | none => go rest

/-- `ASTTransformer.make_const` (asttransform.py lines 160-176). -/
def make_const (fuel : Nat) : Value → Except Err PyExpr
  | .vint n => .ok (PyExpr.pnum n)
  | .vstr s => .ok (PyExpr.pstr s)
  | .vtuple items =>
      match fuel with
      | 0 => .error .fuelOut
      | k + 1 => (items.mapM (make_const k)).map PyExpr.ptuple
  | .vlist items =>
      match fuel with
      | 0 => .error .fuelOut
      | k + 1 => (items.mapM (make_const k)).map PyExpr.plist
  | .vbool b => .ok (PyExpr.pname (if b then "True" else "False"))
  | .vnone => .ok (PyExpr.pname "None")
  | _ => .error .assertionError

/-- Lowering of expressions: `visit_Const` (line 553), `visit_Name`
(lines 530-533), `visit_Tuple` (line 560), `visit_And` (lines 667-670,
emitting a native short-circuit `ast.BoolOp`). -/
def tVisitExpr (fuel : Nat) (cs : CState) (fidx : Nat) : Node → Except Err PyExpr
  | .const v => make_const fuel v
  | .name nm ctx => (lookup_name cs fidx nm ctx).map PyExpr.pname
  | .and_ l r =>
      match fuel with
      | 0 => .error .fuelOut
      | k + 1 => do
          let a ← tVisitExpr k cs fidx l
          let b ← tVisitExpr k cs fidx r
          pure (PyExpr.pboolop true a b)
  | .tuple items _ =>
      match fuel with
      | 0 => .error .fuelOut
      | k + 1 => (items.mapM (tVisitExpr k cs fidx)).map PyExpr.ptuple
  | _ => .error .assertionError

/-- `ASTTransformer.write_output` (asttransform.py lines 185-195) for a
lowered child expression: yield the finalized value, or append it to the
frame's buffer when one is active. -/
def write_output (e : PyExpr) (buffer : Option String) : PyStmt :=
  match buffer with
  | none => PyStmt.pexprYield (PyExpr.pfinalize e)
  | some b => PyStmt.pbufferAppend b (PyExpr.pfinalize e)

mutual

/-- Lowering of statements (`asttransform.py`):
* `visit_Output` (lines 329-337): one write per child through `write_output`;
* `visit_If` (lines 405-421): the test in the current frame, body and else in
  separately derived frames — and, exactly as the source does on line 417,
  the else branch's prologue is injected from `condition_fstate` (the BODY
  frame), not from `condition_fstate_else`;
* `visit_Assign` (lines 455-458) via `make_assign` (lines 253-262), adding
  an `export_var` statement in the root frame;
* `visit_For` (lines 339-397): its first action calls
  `analyze_identfiers([node.target], preassign=True)`, but this snapshot's
  `FrameState.analyze_identfiers` (fstate.py line 67) takes no `preassign`
  keyword, so every For lowering raises `TypeError`. -/
def tVisitStmt (fuel : Nat) (cs : CState) (fidx : Nat) :
    Node → Except Err (CState × List PyStmt)
  | .output nodes =>
      match fuel with
      | 0 => .error .fuelOut
      | k + 1 =>
          match cs.frames[fidx]? with
          | none => .error .assertionError
          | some f => do
              let stmts ← nodes.mapM fun c =>
                (tVisitExpr k cs fidx c).map fun e => write_output e f.buffer
              pure (cs, stmts)
  | .if_ test body else_ =>
      match fuel with
      | 0 => .error .fuelOut
      | k + 1 => do
          let testE ← tVisitExpr k cs fidx test
          let (cs₁, bIdx) := deriveFrame cs fidx .soft true
          let cs₂ := analyze_identfiers k cs₁ bIdx body
          let (cs₃, bodyStmts) ← tVisitBlock k cs₂ bIdx body
          let bodyStmts := inject_scope_code cs₃ bIdx bodyStmts
          match else_ with
          | some els =>
              if els.isEmpty then pure (cs₃, [PyStmt.pif testE bodyStmts []])
              else do
                let (cs₄, eIdx) := deriveFrame cs₃ fidx .soft true
                let cs₅ := analyze_identfiers k cs₄ eIdx els
                let (cs₆, elseStmts) ← tVisitBlock k cs₅ eIdx els
                let elseStmts := inject_scope_code cs₆ bIdx elseStmts
                pure (cs₆, [PyStmt.pif testE bodyStmts elseStmts])
          | none => pure (cs₃, [PyStmt.pif testE bodyStmts []])
  | .assign target node =>
      match fuel with
      | 0 => .error .fuelOut
      | k + 1 => do
          let v ← tVisitExpr k cs fidx node
          match target with
          | .name nm tctx => do
              let tid ← lookup_name cs fidx nm tctx
              match cs.frames[fidx]? with
              | none => .error .assertionError
              | some f =>
                  pure (cs,
                    [PyStmt.passign tid v] ++
                      (if f.root then [PyStmt.pexportVar nm (PyExpr.pname tid)]
                       else []))
          | _ => .error .assertionError
  | .for_ _ _ _ _ => .error .typeError
  | .include_ _ _ => .error .notImplementedError
  | _ => .error .assertionError

def tVisitBlock (fuel : Nat) (cs : CState) (fidx : Nat) :
    List Node → Except Err (CState × List PyStmt)
  | [] => .ok (cs, [])
  | n :: rest =>
      match fuel with
      | 0 => .error .fuelOut
      | k + 1 => do
          let (cs₁, stmts₁) ← tVisitStmt k cs fidx n
          let (cs₂, stmts₂) ← tVisitBlock k cs₁ fidx rest
          pure (cs₂, stmts₁ ++ stmts₂)

end

/-- `ASTTransformer.visit_Template` (asttransform.py lines 295-327)
restricted to the root function: create the root frame (root flag set,
default soft scope, fresh `IdentManager`), track the body, lower it, and
inject the root scope code around the `config = rtstate.config` preamble.
The block/setup emission loops walk `find_all(nodes.Block)`, which is empty
for the node subset here. -/
def toAstRoot (fuel : Nat) : Node → Except Err (CState × List PyStmt)
  | .template body => do
      let cs0 : CState :=
        { frames := [{ scope := .soft, parent := none, root := true }], im := {} }
      let cs₁ := analyze_identfiers fuel cs0 0 body
      let (cs₂, stmts) ← tVisitBlock fuel cs₁ 0 body
      pure (cs₂, inject_scope_code cs₂ 0 (PyStmt.passign "config" PyExpr.prtsConfig :: stmts))
  | _ => .error .assertionError

/- Execution of the lowered artifact: a small-step model of the Python
subset the backend emits, run the way `testsuite/bcinterp.py` runs it
(`ns['root'](rtstate)` with a `RuntimeState` holding the input context). -/

/-- Evaluate a lowered expression.  `pname` follows Python name resolution
(function locals, then the builtins `True`/`False`/`None`, otherwise
`NameError`); `plookupVar` is `RuntimeState.lookup_var` (bcinterp.py
lines 113-122: the context with the configured undefined fallback);
`pfinalize` is the finalize call, modelled from the spec (section 6) since
`RuntimeInfo` lacks the method in this snapshot; `pboolop` has Python's
short-circuit semantics returning the deciding operand itself. -/
def pyEvalExpr (fuel : Nat) (cfg : TKConfig) (ctx env : List (String × Value)) :
    PyExpr → Except Err Value
  | .pnum n => .ok (Value.vint n)
  | .pstr s => .ok (Value.vstr s)
  | .pname id =>
      match alGet env id with
      | some v => .ok v
      | none =>
          if id = "True" then .ok (Value.vbool true)
          else if id = "False" then .ok (Value.vbool false)
          else if id = "None" then .ok Value.vnone
          else .error (.nameError id)
  | .plookupVar nm => .ok ((alGet ctx nm).getD (cfg.undefined_variable nm))
  | .pfinalize e =>
      match fuel with
      | 0 => .error .fuelOut
      | k + 1 => do
          let v ← pyEvalExpr k cfg ctx env e
          pure (Value.vstr (cfg.finalize v))
  | .pboolop isAnd l r =>
      match fuel with
      | 0 => .error .fuelOut
      | k + 1 => do
          let v ← pyEvalExpr k cfg ctx env l
          if isAnd then
            if v.truthy then pyEvalExpr k cfg ctx env r else pure v
          else
            if v.truthy then pure v else pyEvalExpr k cfg ctx env r
  | .ptuple es =>
      match fuel with
      | 0 => .error .fuelOut
      | k + 1 => (es.mapM (pyEvalExpr k cfg ctx env)).map Value.vtuple
  | .plist es =>
      match fuel with
      | 0 => .error .fuelOut
      | k + 1 => (es.mapM (pyEvalExpr k cfg ctx env)).map Value.vlist
  | .prtsConfig => .ok (Value.vhostobj "config")

mutual

/-- Execute lowered statements in a local environment, collecting yielded
chunks. -/
def pyExecStmt (fuel : Nat) (cfg : TKConfig) (ctx : List (String × Value)) :
    PyStmt → List (String × Value) → Except Err (List String × List (String × Value))
  | .passign id e, env =>
      match fuel with
      | 0 => .error .fuelOut
      | k + 1 => do
          let v ← pyEvalExpr k cfg ctx env e
          pure ([], alInsert env id v)
  | .pexprYield e, env =>
      match fuel with
      | 0 => .error .fuelOut
      | k + 1 => do
          let v ← pyEvalExpr k cfg ctx env e
          pure ([match v with | .vstr s => s | w => pyUnicode w], env)
  | .pexportVar _ e, env =>
      match fuel with
      | 0 => .error .fuelOut
      | k + 1 => do
          let _ ← pyEvalExpr k cfg ctx env e
          pure ([], env)
  | .pif t b els, env =>
      match fuel with
      | 0 => .error .fuelOut
      | k + 1 => do
          let v ← pyEvalExpr k cfg ctx env t
          pyExecBlock k cfg ctx (if v.truthy then b else els) env
  | .pbufferAppend _ _, _ => .error .notImplementedError
  | .ppass, env => .ok ([], env)

def pyExecBlock (fuel : Nat) (cfg : TKConfig) (ctx : List (String × Value)) :
    List PyStmt → List (String × Value) →
    Except Err (List String × List (String × Value))
  | [], env => .ok ([], env)
  | s :: rest, env =>
      match fuel with
      | 0 => .error .fuelOut
      | k + 1 => do
          let (out₁, env₁) ← pyExecStmt k cfg ctx s env
          let (out₂, env₂) ← pyExecBlock k cfg ctx rest env₁
          pure (out₁ ++ out₂, env₂)

end

/-- Run a lowered root function against an input context, collecting the
generator's chunks (`run_bytecode` + `ns['root'](rtstate)`). -/
def pyRunRoot (cfg : TKConfig) (fuel : Nat) (ctx : List (String × Value))
    (stmts : List PyStmt) : Except Err (List String) :=
  (pyExecBlock fuel cfg ctx stmts []).map (·.1)

/-- `JavaScriptGenerator.write_scope_code` (jscompiler.py lines 130-153):
the declaration items of the emitted `var ...;` line — alias initialisers
first, runtime-context lookups second, and last the bare local identifiers
not already handled by the first two groups. -/
def write_scope_code (cs : CState) (fidx : Nat) : List String :=
  match cs.frames[fidx]? with
  | none => []
  | some f =>
      let aliasVars :=
        f.required_aliases.foldl (fun acc p => acc ++ [p.1 ++ " = " ++ p.2]) []
      let lookupVars :=
        (iter_required_lookups cs fidx).foldl
          (fun acc p => acc ++ [p.1 ++ " = rts.lookupVar(\"" ++ p.2 ++ "\")"]) []
      let handled :=
        f.required_aliases.map (·.1) ++ (iter_required_lookups cs fidx).map (·.1)
      let declVars :=
        f.local_identifiers.filterMap fun p =>
          if p.2 ∈ handled then none else some p.2
      aliasVars ++ lookupVars ++ declVars

/- Tuple-unpacking helpers of the compiled execution strategy
(`bcinterp.py` lines 62-98). -/

/-- The nested name tuples produced by `ASTTransformer.make_name_tuple`
(asttransform.py lines 140-158) and passed to the unpack helper. -/
inductive NameTup where
  | nm : String → NameTup
  | tup : List NameTup → NameTup
  deriving Repr

/-- Rendering used when `config.undefined_variable` receives a whole nested
tuple (the out-of-claim-scope corner of `_unpack_tuple_silent`); the exact
text is irrelevant to every claim, which only ever reaches plain names. -/
def NameTup.label : NameTup → String
  | .nm s => s
  | .tup _ => "<tuple>"

/-- `recursive_make_undefined` (bcinterp.py lines 62-69). -/
def recursive_make_undefined (fuel : Nat) (cfg : TKConfig) :
    List NameTup → List Value
  | [] => []
  | t :: rest =>
      match fuel with
      | 0 => []
      | k + 1 =>
          (match t with
           | .nm n => cfg.undefined_variable n
           | .tup sub => Value.vtuple (recursive_make_undefined k cfg sub)) ::
            recursive_make_undefined k cfg rest

mutual

/-- `lenient_unpack_helper` (bcinterp.py lines 83-98): tolerate non-iterable
values only under `allow_noniter_unpacking` (substituting undefineds per
target), return the values unchanged under strict unpacking (so the native
tuple assignment performs the cardinality check), and otherwise unpack
silently. -/
def lenient_unpack_helper (fuel : Nat) (cfg : TKConfig) (iterable : Value)
    (targets : List NameTup) : Except Err Value :=
  match iterable.toIterable with
  | .error _ =>
      if !cfg.allow_noniter_unpacking then .error .typeError
      else
        match fuel with
        | 0 => .error .fuelOut
        | k + 1 => .ok (Value.vtuple (recursive_make_undefined k cfg targets))
  | .ok values =>
      if cfg.strict_tuple_unpacking then .ok (Value.vtuple values)
      else
        match fuel with
        | 0 => .error .fuelOut
        | k + 1 => (unpack_tuple_silent k cfg values targets).map Value.vtuple

/-- `_unpack_tuple_silent` (bcinterp.py lines 72-80): zip the targets with
the values (recursing into nested tuple targets), then pad the shortfall by
yielding `config.undefined_variable(targets[len(targets) + x - 1])` for
`x` in `range(diff)` — note the source's index arithmetic walks off the end
of `targets` whenever the shortfall exceeds one (`IndexError`). -/
def unpack_tuple_silent (fuel : Nat) (cfg : TKConfig) (values : List Value)
    (targets : List NameTup) : Except Err (List Value) :=
  match fuel with
  | 0 => .error .fuelOut
  | k + 1 => do
      let zipped ← silentZip k cfg targets values
      let diff := targets.length - values.length
      let tail ← (List.range diff).mapM fun x =>
        match targets[targets.length + x - 1]? with
        | some t => Except.ok (cfg.undefined_variable t.label)
        | none => Except.error Err.indexError
      pure (zipped ++ tail)

def silentZip (fuel : Nat) (cfg : TKConfig) :
    List NameTup → List Value → Except Err (List Value)
  | t :: ts, v :: vs =>
      (match fuel with
       | 0 => .error .fuelOut
       | k + 1 => do
          let head ←
            match t with
            | .tup sub => lenient_unpack_helper k cfg v sub
            | .nm _ => Except.ok v
          let rest ← silentZip k cfg ts vs
          pure (head :: rest))
  | _, _ => .ok []

end

/-- Native Python unpacking assignment `(n₁, ..., nₖ) = value` as the
compiled For loop performs on each element: iterate the value and require
an exact cardinality match (`ValueError` otherwise, `TypeError` for
non-iterables). -/
def pyTupleAssignNames (names : List String) (v : Value)
    (env : List (String × Value)) : Except Err (List (String × Value)) := do
  let vals ← v.toIterable
  if vals.length ≠ names.length then .error .valueError
  else pure ((names.zip vals).foldl (fun acc p => alInsert acc p.1 p.2) env)

/- Trace model for the identifier manager, used to reason about all the
identifier strings one compilation draws from the shared manager. -/

/-- The manager operations the tracking and lowering code performs:
`encode(name)` with the default suffix, `override(name)`, `temporary()`. -/
inductive MOp where
  | encode : String → MOp
  | override : String → MOp
  | temporary : MOp
  deriving DecidableEq, Repr

def MOp.step (m : IdentManager) : MOp → String × IdentManager
  | .encode nm => m.encode nm 0
  | .override nm => m.override nm
  | .temporary => m.temporary

/-- `override` and `temporary` draw a fresh counter value; default-suffix
`encode` does not (with long ids). -/
def MOp.isFresh : MOp → Bool
  | .encode _ => false
  | _ => true

/-- The identifier strings produced by a sequence of manager calls. -/
def runOps (m : IdentManager) : List MOp → List String
  | [] => []
  | op :: rest =>
      let (s, m') := op.step m
      s :: runOps m' rest

/-- The outputs of the counter-consuming (`override`/`temporary`) calls of
a sequence of manager calls. -/
def freshOutputs (m : IdentManager) : List MOp → List String
  | [] => []
  | op :: rest =>
      let (s, m') := op.step m
      (if op.isFresh then [s] else []) ++ freshOutputs m' rest

/-- Decimal value of a digit string (left inverse of `Nat.repr` on its
range, used to prove `Nat.repr` injective). -/
def digitsVal (l : List Char) : Nat :=
  l.foldl (fun acc c => acc * 10 + (c.toNat - 48)) 0

/- The claim-side recursive description of `iter_required_lookups`, written
from the claim wording for comparison with the source function. -/

/-- The claim's recursive description of the inner-frame contribution to
`iter_required_lookups`: "recursively through every descendant frame of F
(children, grandchildren, and deeper), each identifier that the descendant
referenced from an outer scope and that no intervening frame resolved, with
alias identifiers mapped back through required_aliases to the outer
identifier".  A deeper descendant's pair is dropped when an intervening
frame binds the source name in its `local_identifiers` (that frame resolved
it).  This definition follows the claim text, not the source, and exists to
be compared against `iter_required_lookups`. -/
def claimedInnerLookups (cs : CState) : Nat → Nat → List (String × String)
  | 0, _ => []
  | fuel + 1, fidx =>
      match cs.frames[fidx]? with
      | none => []
      | some f =>
          f.inner_frames.flatMap fun ci =>
            match cs.frames[ci]? with
            | none => []
            | some cf =>
                let direct := cf.referenced_identifiers.filterMap fun p =>
                  if p.1 ∈ cf.from_outer_scope then
                    some ((alGet cf.required_aliases p.2).getD p.2, p.1)
                  else none
                let deeper := (claimedInnerLookups cs fuel ci).filter fun q =>
                  !(alHas cf.local_identifiers q.2)
                direct ++ deeper

/-- The full claim-side description: the union of the frame's own direct
`requires_lookup` entries with the recursive descendant contribution. -/
def claimedRequiredLookups (cs : CState) (fidx : Nat) : List (String × String) :=
  match cs.frames[fidx]? with
  | none => []
  | some f =>
      alUpdate f.requires_lookup (claimedInnerLookups cs (cs.frames.length + 1) fidx)

/- Concrete configurations and templates used by the claims (taken from the
repository's shared execution test suite, `testsuite/_basicexec.py`). -/

/-- The default `Config()` the test suite passes when none is given. -/
def defaultTestConfig : TKConfig := {}

/-- `test_strict_loop_unpacking_behavior`: `strict_tuple_unpacking = True`. -/
def strictUnpackConfig : TKConfig := { strict_tuple_unpacking := true }

/-- `test_lenient_loop_unpacking_behavior`: lenient unpacking with
`undefined_variable = lambda x: '<%s>' % x`. -/
def lenientUnpackConfig : TKConfig :=
  { undefined_variable := fun n => Value.vstr ("<" ++ n ++ ">") }

/-- The alias-correctness template of `test_if_scoping`
(testsuite/_basicexec.py lines 127-136): output `a`, an always-true If
branch assigning `a = 23` and outputting it, then output `a` again. -/
def aliasTemplate : Node :=
  .template [
    .output [.name "a" .load, .const (.vstr ";")],
    .if_ (.const (.vbool true))
      [.assign (.name "a" .store) (.const (.vint 23)),
       .output [.name "a" .load]]
      (some []),
    .output [.const (.vstr ";"), .name "a" .load]]

/-- The 2-target tuple For template of the unpack tests (body outputs
`item`, `;`, `whoop`). -/
def unpackTemplate : Node :=
  .template [
    .for_ (.tuple [.name "item" .store, .name "whoop" .store] .store)
      (.name "iterable" .load)
      [.output [.name "item" .load, .const (.vstr ";"), .name "whoop" .load]]
      none]

/-- A template whose else branch reads a context variable while the body
does not: `if False: output "x" else: output a`. -/
def ifElseLookupTemplate : Node :=
  .template [
    .if_ (.const (.vbool false))
      [.output [.const (.vstr "x")]]
      (some [.output [.name "a" .load]])]

/-- The same shape with an always-true test, used to inspect the lowering
of the else branch in isolation. -/
def ifElseLookupTemplateTrue : Node :=
  .template [
    .if_ (.const (.vbool true))
      [.output [.const (.vstr "x")]]
      (some [.output [.name "a" .load]])]

/-- Root-assigned `a`, read only three If levels down: the two intermediate
frames never mention `a`.  Relative to the outermost If's body frame
(frame 1), the reading frame is a grandchild, the intervening frame binds
nothing, and the frame that binds `a` (the root) lies strictly above
frame 1. -/
def grandchildTemplate : Node :=
  .template [
    .assign (.name "a" .store) (.const (.vint 1)),
    .if_ (.const (.vbool true))
      [.if_ (.const (.vbool true))
        [.if_ (.const (.vbool true)) [.output [.name "a" .load]] none]
        none]
      none]

/-- Both branches of an If load the same context variable `x`, so each
branch frame asks the manager to encode `x`. -/
def twoBranchTemplate : Node :=
  .template [
    .if_ (.const (.vbool true))
      [.output [.name "x" .load]]
      (some [.output [.name "x" .load]])]

/-- A configuration whose template loader knows no templates and raises
the not-found condition for every name (the shape of the
`test_basic_include_ignore_missing` setup). -/
def includeMissingConfig : TKConfig :=
  { get_or_select_template := fun _ => .error (.templateNotFound "includemissing.html") }

/-- A hand-built two-frame compilation state: the root frame binds `a` to
`l_a_0`, and a derived soft child frame is about to track a store of `a`. -/
def storeStateExample : CState :=
  { frames := [{ root := true, local_identifiers := [("a", "l_a_0")] },
               { parent := some 0 }],
    im := {} }

/-- A hand-built frame whose scope-code injection exercises all three
prologue groups: one required alias, one deferred inner function and one
required lookup. -/
def injectStateExample : CState :=
  { frames := [{ root := true,
                 local_identifiers := [("a", "l_a_1"), ("x", "l_x_0")],
                 required_aliases := [("l_a_1", "l_a_0")],
                 requires_lookup := [("l_x_0", "x")],
                 inner_functions := [[PyStmt.ppass]] }],
    im := {} }

/-- A hand-built parent/child pair for the required-lookup witness: the
child referenced `b` (as `l_b_0`) from an outer scope, the parent requires
the direct lookup of `c`. -/
def lookupStateExample : CState :=
  { frames := [{ root := true, inner_frames := [1],
                 requires_lookup := [("l_c_0", "c")] },
               { parent := some 0,
                 referenced_identifiers := [("b", "l_b_0")],
                 from_outer_scope := ["b"] }],
    im := {} }

/- ------------------------------------------------------------------ -/
/- Theorems.                                                           -/
/- ------------------------------------------------------------------ -/

theorem ne_of_length_ne {α : Type} {l₁ l₂ : List α}
    (h : l₁.length ≠ l₂.length) : l₁ ≠ l₂ :=
  fun hl => h (hl ▸ rfl)

theorem alGet_alInsert {α : Type} (l : List (String × α)) (k k' : String) (v : α) :
    alGet (alInsert l k v) k' = if k' = k then some v else alGet l k' := by
  induction l with
  | nil =>
    by_cases h : k' = k
    · simp [alInsert, alGet, h]
    · simp [alInsert, alGet, h, Ne.symm h]
  | cons p rest ih =>
    obtain ⟨pk, pv⟩ := p
    by_cases h1 : pk = k
    · subst h1
      by_cases h2 : k' = pk
      · simp [alInsert, alGet, h2]
      · simp [alInsert, alGet, h2, Ne.symm h2]
    · by_cases h2 : pk = k'
      · subst h2
        simp [alInsert, alGet, h1, Ne.symm h1]
      · simp [alInsert, alGet, h1, h2, ih]

theorem alGet_append {α : Type} (l₁ l₂ : List (String × α)) (k : String) :
    alGet (l₁ ++ l₂) k = (alGet l₁ k).orElse (fun _ => alGet l₂ k) := by
  induction l₁ with
  | nil => simp [alGet, Option.orElse]
  | cons p rest ih =>
    by_cases h : p.1 = k <;> simp [alGet, h, ih, Option.orElse]

/-- Characterisation of Python's `dict.update`: looking up a key after the
update returns the value of the *last* pair for that key in the update
sequence when one exists, and the base dictionary's value otherwise. -/
theorem alGet_alUpdate {α : Type} (base upd : List (String × α)) (k : String) :
    alGet (alUpdate base upd) k =
      (alGet upd.reverse k).orElse (fun _ => alGet base k) := by
  induction upd generalizing base with
  | nil => simp [alUpdate, alGet, Option.orElse]
  | cons p rest ih =>
    have step : alUpdate base (p :: rest) = alUpdate (alInsert base p.1 p.2) rest := by
      simp [alUpdate]
    rw [step, ih]
    rw [List.reverse_cons, alGet_append]
    by_cases h : alGet rest.reverse k = none
    · by_cases h2 : k = p.1
      · subst h2
        simp [h, Option.orElse, alGet_alInsert, alGet]
      · simp [h, Option.orElse, alGet_alInsert, h2, alGet, Ne.symm h2]
    · obtain ⟨v, hv⟩ := Option.ne_none_iff_exists'.mp h
      simp [hv, Option.orElse]

theorem foldl_append_map {α β : Type} (l : List α) (g : α → β) (init : List β) :
    l.foldl (fun acc p => acc ++ [g p]) init = init ++ l.map g := by
  induction l generalizing init with
  | nil => simp
  | cons a rest ih => simp [ih]

theorem foldl_append_flatten {α : Type} (ls : List (List α)) (init : List α) :
    ls.foldl (fun acc fn => acc ++ fn) init = init ++ ls.flatten := by
  induction ls generalizing init with
  | nil => simp
  | cons a rest ih => simp [ih]

theorem alGet_mem {α : Type} : ∀ (l : List (String × α)) (k : String) (v : α),
    alGet l k = some v → (k, v) ∈ l := by
  intro l
  induction l with
  | nil => intro k v h; simp [alGet] at h
  | cons p rest ih =>
    obtain ⟨pk, pv⟩ := p
    intro k v h
    rw [alGet] at h
    by_cases hk : pk = k
    · subst hk
      simp only [if_true] at h
      rw [← Option.some.inj h]
      exact List.mem_cons_self _ _
    · simp only [hk, if_false] at h
      exact List.mem_cons_of_mem _ (ih k v h)

theorem digitChar_toNat : ∀ d : Nat, d < 10 → (Nat.digitChar d).toNat = d + 48 := by
  decide

theorem digitChar_isDigit : ∀ d : Nat, d < 10 → (Nat.digitChar d).isDigit = true := by
  decide

theorem toDigitsCore_append (f : Nat) :
    ∀ (n : Nat) (acc : List Char),
      Nat.toDigitsCore 10 f n acc = Nat.toDigitsCore 10 f n [] ++ acc := by
  induction f with
  | zero => intro n acc; simp [Nat.toDigitsCore]
  | succ f ih =>
    intro n acc
    simp only [Nat.toDigitsCore]
    by_cases h : n / 10 = 0
    · simp [h]
    · simp only [h, if_false]
      rw [ih (n / 10) (Nat.digitChar (n % 10) :: acc),
          ih (n / 10) [Nat.digitChar (n % 10)]]
      simp

theorem digitsVal_append_singleton (xs : List Char) (c : Char) :
    digitsVal (xs ++ [c]) = digitsVal xs * 10 + (c.toNat - 48) := by
  simp [digitsVal, List.foldl_append]

theorem toDigitsCore_spec (f : Nat) :
    ∀ n : Nat, 0 < f → n < 10 ^ f →
      digitsVal (Nat.toDigitsCore 10 f n []) = n ∧
      (∀ c ∈ Nat.toDigitsCore 10 f n [], c.isDigit = true) ∧
      Nat.toDigitsCore 10 f n [] ≠ [] := by
  induction f with
  | zero => intro n h0; exact absurd h0 (by omega)
  | succ f ih =>
    intro n _ hlt
    by_cases h : n / 10 = 0
    · have hn : n < 10 := by omega
      have hmod : n % 10 = n := Nat.mod_eq_of_lt hn
      refine ⟨?_, ?_, ?_⟩
      · simp [Nat.toDigitsCore, h, digitsVal, hmod, digitChar_toNat n hn]
      · intro c hc
        simp [Nat.toDigitsCore, h] at hc
        rw [hc, hmod]
        exact digitChar_isDigit n hn
      · simp [Nat.toDigitsCore, h]
    · have hn10 : 10 ≤ n := by
        rcases Nat.lt_or_ge n 10 with h1 | h1
        · exact absurd (Nat.div_eq_of_lt h1) h
        · exact h1
      have hfpos : 0 < f := by
        by_contra hf
        have : f = 0 := by omega
        subst this
        simp at hlt
        omega
      have hdiv : n / 10 < 10 ^ f := by
        have hmul : n < 10 ^ f * 10 := by
          calc n < 10 ^ (f + 1) := hlt
          _ = 10 ^ f * 10 := by ring
        exact Nat.div_lt_of_lt_mul (by omega)
      obtain ⟨ihv, ihd, ihne⟩ := ih (n / 10) hfpos hdiv
      have hstep : Nat.toDigitsCore 10 (f + 1) n [] =
          Nat.toDigitsCore 10 f (n / 10) [] ++ [Nat.digitChar (n % 10)] := by
        simp only [Nat.toDigitsCore, h, if_false]
        exact toDigitsCore_append f (n / 10) [Nat.digitChar (n % 10)]
      refine ⟨?_, ?_, ?_⟩
      · rw [hstep, digitsVal_append_singleton, ihv,
            digitChar_toNat (n % 10) (Nat.mod_lt n (by omega))]
        omega
      · intro c hc
        rw [hstep] at hc
        rcases List.mem_append.mp hc with h1 | h1
        · exact ihd c h1
        · simp at h1
          rw [h1]
          exact digitChar_isDigit (n % 10) (Nat.mod_lt n (by omega))
      · rw [hstep]
        simp

theorem repr_data (n : Nat) : (Nat.repr n).data = Nat.toDigits 10 n := rfl

theorem digitsVal_repr (n : Nat) : digitsVal (Nat.repr n).data = n := by
  have hfuel : n < 10 ^ (n + 1) := by
    calc n < 10 ^ n := Nat.lt_pow_self (by omega) n
    _ ≤ 10 ^ (n + 1) := Nat.pow_le_pow_right (by omega) (by omega)
  exact (toDigitsCore_spec (n + 1) n (by omega) hfuel).1

theorem repr_injective : Function.Injective Nat.repr := by
  intro a b h
  have := congrArg (fun s => digitsVal s.data) h
  simpa [digitsVal_repr] using this

theorem repr_all_digits (n : Nat) : ∀ c ∈ (Nat.repr n).data, c.isDigit = true := by
  have hfuel : n < 10 ^ (n + 1) := by
    calc n < 10 ^ n := Nat.lt_pow_self (by omega) n
    _ ≤ 10 ^ (n + 1) := Nat.pow_le_pow_right (by omega) (by omega)
  exact (toDigitsCore_spec (n + 1) n (by omega) hfuel).2.1

theorem repr_ne_nil (n : Nat) : (Nat.repr n).data ≠ [] := by
  have hfuel : n < 10 ^ (n + 1) := by
    calc n < 10 ^ n := Nat.lt_pow_self (by omega) n
    _ ≤ 10 ^ (n + 1) := Nat.pow_le_pow_right (by omega) (by omega)
  exact (toDigitsCore_spec (n + 1) n (by omega) hfuel).2.2

theorem string_data_append (s t : String) : (s ++ t).data = s.data ++ t.data := by
  cases s; cases t; rfl

theorem string_ext_data {s t : String} (h : s.data = t.data) : s = t := by
  cases s
  cases t
  simp only at h
  rw [h]

theorem append_left_cancel_str {s t u : String} (h : s ++ t = s ++ u) : t = u := by
  have hd := congrArg String.data h
  rw [string_data_append, string_data_append] at hd
  exact string_ext_data (List.append_cancel_left hd)

theorem repr_head_ne_underscore (n : Nat) :
    ∀ c ∈ (Nat.repr n).data, c ≠ '_' := by
  intro c hc h
  have := repr_all_digits n c hc
  rw [h] at this
  simp [Char.isDigit] at this

/-- Uniqueness of splitting a character list at its first separator-free
prefix: when neither prefix contains the separator, the two decompositions
coincide. -/
theorem first_sep_split (sep : Char) :
    ∀ (l₁ l₂ r₁ r₂ : List Char), (∀ c ∈ l₁, c ≠ sep) → (∀ c ∈ l₂, c ≠ sep) →
      l₁ ++ sep :: r₁ = l₂ ++ sep :: r₂ → l₁ = l₂ ∧ r₁ = r₂ := by
  intro l₁
  induction l₁ with
  | nil =>
    intro l₂ r₁ r₂ _ h₂ heq
    cases l₂ with
    | nil => simpa using heq
    | cons c cs =>
      simp at heq
      exact absurd heq.1.symm (h₂ c (by simp))
  | cons c cs ih =>
    intro l₂ r₁ r₂ h₁ h₂ heq
    cases l₂ with
    | nil =>
      simp at heq
      exact absurd heq.1 (h₁ c (by simp))
    | cons d ds =>
      simp at heq
      obtain ⟨hcd, hrest⟩ := heq
      obtain ⟨hl, hr⟩ := ih ds r₁ r₂ (fun x hx => h₁ x (by simp [hx]))
        (fun x hx => h₂ x (by simp [hx])) hrest
      exact ⟨by simp [hcd, hl], hr⟩

/-- Splitting a character list at its last separator: when neither suffix
contains the separator, the suffixes coincide. -/
theorem last_sep_split (sep : Char) (x₁ x₂ d₁ d₂ : List Char)
    (h₁ : ∀ c ∈ d₁, c ≠ sep) (h₂ : ∀ c ∈ d₂, c ≠ sep)
    (heq : x₁ ++ sep :: d₁ = x₂ ++ sep :: d₂) : d₁ = d₂ := by
  have hrev := congrArg List.reverse heq
  simp only [List.reverse_append, List.reverse_cons] at hrev
  have hshape : d₁.reverse ++ sep :: x₁.reverse = d₂.reverse ++ sep :: x₂.reverse := by
    simpa [List.append_assoc] using hrev
  have hsp := first_sep_split sep d₁.reverse d₂.reverse x₁.reverse x₂.reverse
    (fun c hc => h₁ c (List.mem_reverse.mp hc))
    (fun c hc => h₂ c (List.mem_reverse.mp hc)) hshape
  have := congrArg List.reverse hsp.1
  simpa using this

/-- Identifiers of the long `override` form are injective in the counter:
`l_<nm₁>_<repr a> = l_<nm₂>_<repr b>` forces `a = b`. -/
theorem long_form_num_inj {nm₁ nm₂ : String} {a b : Nat}
    (h : "l_" ++ nm₁ ++ "_" ++ Nat.repr a = "l_" ++ nm₂ ++ "_" ++ Nat.repr b) :
    a = b := by
  have hd := congrArg String.data h
  simp only [string_data_append] at hd
  have hd' : (['l', '_'] ++ nm₁.data) ++ '_' :: (Nat.repr a).data =
      (['l', '_'] ++ nm₂.data) ++ '_' :: (Nat.repr b).data := by
    simpa [List.append_assoc] using hd
  have hdd := last_sep_split '_' _ _ _ _
    (fun c hc => repr_head_ne_underscore a c hc)
    (fun c hc => repr_head_ne_underscore b c hc) hd'
  exact repr_injective (string_ext_data hdd)

theorem head_t_l_ne {x y : String} : "t" ++ x ≠ "l" ++ y := by
  intro h
  have hd := congrArg String.data h
  simp [string_data_append] at hd

theorem tOut_inj {a b : Nat} (h : "t" ++ Nat.repr a = "t" ++ Nat.repr b) : a = b :=
  repr_injective (append_left_cancel_str h)

theorem lShort_inj {a b : Nat} (h : "l" ++ Nat.repr a = "l" ++ Nat.repr b) : a = b :=
  repr_injective (append_left_cancel_str h)

theorem lShort_ne_lLong (a b : Nat) (nm : String) :
    "l" ++ Nat.repr a ≠ "l_" ++ nm ++ "_" ++ Nat.repr b := by
  intro h
  have hd := congrArg String.data h
  simp only [string_data_append] at hd
  have hmem : '_' ∈ (Nat.repr a).data := by
    have : 'l' :: (Nat.repr a).data =
        'l' :: '_' :: (nm.data ++ '_' :: (Nat.repr b).data) := by
      simpa [List.append_assoc] using hd
    simp at this
    rw [this]
    simp
  exact repr_head_ne_underscore a '_' hmem rfl

/-- Strings embedding distinct counter values are distinct, across all
three identifier shapes the manager produces. -/
theorem form_ne {a b : Nat} (hne : a ≠ b) (s₁ s₂ : String)
    (h₁ : s₁ = "t" ++ Nat.repr a ∨ s₁ = "l" ++ Nat.repr a ∨
      ∃ nm, s₁ = "l_" ++ nm ++ "_" ++ Nat.repr a)
    (h₂ : s₂ = "t" ++ Nat.repr b ∨ s₂ = "l" ++ Nat.repr b ∨
      ∃ nm, s₂ = "l_" ++ nm ++ "_" ++ Nat.repr b) : s₁ ≠ s₂ := by
  rcases h₁ with h₁ | h₁ | ⟨nm₁, h₁⟩ <;> rcases h₂ with h₂ | h₂ | ⟨nm₂, h₂⟩ <;>
    subst h₁ <;> subst h₂ <;> intro h
  · exact hne (tOut_inj h)
  · exact head_t_l_ne h
  · exact head_t_l_ne (by simpa [← String.append_assoc] using h)
  · exact head_t_l_ne h.symm
  · exact hne (lShort_inj h)
  · exact lShort_ne_lLong a b nm₂ h
  · exact head_t_l_ne (by simpa [← String.append_assoc] using h.symm)
  · exact lShort_ne_lLong b a nm₁ h.symm
  · exact hne (long_form_num_inj h)

/-- Every output of a counter-consuming call in a run starting from `m`
embeds a counter value at least `m.index`. -/
theorem freshOutputs_form (ops : List MOp) :
    ∀ (m : IdentManager), ∀ s ∈ freshOutputs m ops, ∃ n, m.index ≤ n ∧
      (s = "t" ++ Nat.repr n ∨ s = "l" ++ Nat.repr n ∨
        ∃ nm, s = "l_" ++ nm ++ "_" ++ Nat.repr n) := by
  induction ops with
  | nil => intro m s hs; simp [freshOutputs] at hs
  | cons op rest ih =>
    intro m s hs
    cases op with
    | encode nm =>
      simp only [freshOutputs, MOp.step, MOp.isFresh] at hs
      by_cases hsh : m.short_ids
      · simp [IdentManager.encode, IdentManager.next_num, hsh] at hs
        obtain ⟨n, hn, hform⟩ := ih _ s hs
        exact ⟨n, by simp [IdentManager.encode, IdentManager.next_num, hsh] at hn ⊢; omega, hform⟩
      · simp [IdentManager.encode, hsh] at hs
        obtain ⟨n, hn, hform⟩ := ih _ s hs
        exact ⟨n, by simpa [IdentManager.encode, hsh] using hn, hform⟩
    | override nm =>
      simp only [freshOutputs, MOp.step, MOp.isFresh] at hs
      by_cases hsh : m.short_ids
      · simp [IdentManager.override, IdentManager.encode, IdentManager.next_num, hsh] at hs
        rcases hs with hs | hs
        · exact ⟨m.index + 1, by omega, Or.inr (Or.inl hs)⟩
        · obtain ⟨n, hn, hform⟩ := ih _ s hs
          simp at hn
          exact ⟨n, by omega, hform⟩
      · simp [IdentManager.override, IdentManager.encode, IdentManager.next_num, hsh] at hs
        rcases hs with hs | hs
        · exact ⟨m.index, le_refl _, Or.inr (Or.inr ⟨nm, hs⟩)⟩
        · obtain ⟨n, hn, hform⟩ := ih _ s hs
          simp at hn
          exact ⟨n, by omega, hform⟩
    | temporary =>
      simp only [freshOutputs, MOp.step, MOp.isFresh] at hs
      simp [IdentManager.temporary, IdentManager.next_num] at hs
      rcases hs with hs | hs
      · exact ⟨m.index, le_refl _, Or.inl hs⟩
      · obtain ⟨n, hn, hform⟩ := ih _ s hs
        simp at hn
        exact ⟨n, by omega, hform⟩

/-- All counter-consuming calls of one run return pairwise distinct
identifier strings. -/
theorem freshOutputs_pairwise_ne (ops : List MOp) :
    ∀ m : IdentManager, (freshOutputs m ops).Pairwise (· ≠ ·) := by
  induction ops with
  | nil => intro m; simp [freshOutputs]
  | cons op rest ih =>
    intro m
    cases op with
    | encode nm =>
      simpa [freshOutputs, MOp.step, MOp.isFresh] using ih _
    | override nm =>
      simp only [freshOutputs, MOp.step, MOp.isFresh]
      by_cases hsh : m.short_ids
      · simp only [IdentManager.override, IdentManager.encode, IdentManager.next_num, hsh,
          if_true]
        refine List.Pairwise.cons ?_ (ih _)
        intro s hs
        obtain ⟨n, hn, hform⟩ := freshOutputs_form rest _ s hs
        simp at hn
        exact form_ne (by omega) _ s (Or.inr (Or.inl rfl)) hform
      · simp only [IdentManager.override, IdentManager.encode, IdentManager.next_num, hsh,
          if_false]
        refine List.Pairwise.cons ?_ (ih _)
        intro s hs
        obtain ⟨n, hn, hform⟩ := freshOutputs_form rest _ s hs
        simp at hn
        exact form_ne (by omega) _ s (Or.inr (Or.inr ⟨nm, rfl⟩)) hform
    | temporary =>
      simp only [freshOutputs, MOp.step, MOp.isFresh, IdentManager.temporary,
        IdentManager.next_num]
      refine List.Pairwise.cons ?_ (ih _)
      intro s hs
      obtain ⟨n, hn, hform⟩ := freshOutputs_form rest _ s hs
      simp at hn
      exact form_ne (by omega) _ s (Or.inl rfl) hform


/-- Claim C1: the concatenated interpreter output is supposed to equal the
output of executing the lowered host-AST artifact for every supported
construct and input mapping.  At the concrete template
`if False: output "x" else: output a` with input `a = 42` — which uses only
supported constructs — the Reference Interpreter yields the single chunk
"42", while the artifact lowered by the host-AST backend raises
`NameError` for the unbound local `l_a_0`: the else branch's prologue was
computed from the body's frame (asttransform.py line 417), so the lookup
assignment `l_a_0 = rtstate.lookup_var('a')` that the else frame requires
is never emitted.  This theorem evaluates both strategies at that failing
input. -/
theorem c1_interpreter_vs_lowered_artifact :
    interpRun defaultTestConfig 100 ifElseLookupTemplate [("a", Value.vint 42)] =
      .ok ["42"] ∧
    (toAstRoot 100 ifElseLookupTemplate).map
        (fun p => pyRunRoot defaultTestConfig 100 [("a", Value.vint 42)] p.2) =
      .ok (.error (.nameError "l_a_0")) :=
  ⟨rfl, rfl⟩

/-- Claim C3: lowering an If is supposed to give each branch a prologue
computed from that branch's own frame.  For the concrete template
`if True: output "x" else: output a`, the emitted else branch contains no
prologue at all (it was injected from the body's frame, which needs
nothing), while the injection computed from the else branch's own frame —
frame 2 of this compilation — prepends the required
`l_a_0 = rtstate.lookup_var("a")` assignment.  The two differ, refuting the
claim's description of the code and exhibiting the slip at
asttransform.py line 417. -/
theorem c3_else_branch_prologue_wrong_frame :
    (toAstRoot 100 ifElseLookupTemplateTrue).map (fun p => p.2) =
      .ok [PyStmt.passign "config" PyExpr.prtsConfig,
           PyStmt.pif (PyExpr.pname "True")
             [PyStmt.pexprYield (PyExpr.pfinalize (PyExpr.pstr "x")), dummyYieldStmt]
             [PyStmt.pexprYield (PyExpr.pfinalize (PyExpr.pname "l_a_0")),
              dummyYieldStmt],
           dummyYieldStmt] ∧
    (toAstRoot 100 ifElseLookupTemplateTrue).map
        (fun p => inject_scope_code p.1 2
          [PyStmt.pexprYield (PyExpr.pfinalize (PyExpr.pname "l_a_0"))]) =
      .ok [PyStmt.passign "l_a_0" (PyExpr.plookupVar "a"),
           PyStmt.pexprYield (PyExpr.pfinalize (PyExpr.pname "l_a_0")),
           dummyYieldStmt] ∧
    ([PyStmt.pexprYield (PyExpr.pfinalize (PyExpr.pname "l_a_0")), dummyYieldStmt] :
        List PyStmt) ≠
      [PyStmt.passign "l_a_0" (PyExpr.plookupVar "a"),
       PyStmt.pexprYield (PyExpr.pfinalize (PyExpr.pname "l_a_0")),
       dummyYieldStmt] :=
  ⟨rfl, rfl, ne_of_length_ne (by decide)⟩

/-- Claim C7: tuple-unpacking boundary behaviour, in the interpreter (full
template runs of the shared test-suite template) and in the compiled
strategy (the `lenient_unpack_helper` routed through the native tuple
assignment): strict mode raises `ValueError` on a 3-element item for a
2-name target; lenient mode with `undefined_variable(x) = "<x>"` drops the
extra element and renders `1;2`, and pads the missing element of a 1-tuple
so that the targets render `1;<whoop>`. -/
theorem c7_tuple_unpacking_boundary :
    interpRun strictUnpackConfig 100 unpackTemplate
        [("iterable", Value.vlist [Value.vtuple
          [Value.vint 1, Value.vint 2, Value.vint 3]])] =
      .error .valueError ∧
    interpRun lenientUnpackConfig 100 unpackTemplate
        [("iterable", Value.vlist [Value.vtuple
          [Value.vint 1, Value.vint 2, Value.vint 3]])] =
      .ok ["1", ";", "2"] ∧
    interpRun lenientUnpackConfig 100 unpackTemplate
        [("iterable", Value.vlist [Value.vtuple [Value.vint 1]])] =
      .ok ["1", ";", "<whoop>"] ∧
    pyTupleAssignNames ["l_item_0", "l_whoop_0"]
        (Value.vtuple [Value.vint 1, Value.vint 2, Value.vint 3]) [] =
      .error .valueError ∧
    lenient_unpack_helper 100 lenientUnpackConfig
        (Value.vtuple [Value.vint 1, Value.vint 2, Value.vint 3])
        [NameTup.nm "item", NameTup.nm "whoop"] =
      .ok (Value.vtuple [Value.vint 1, Value.vint 2]) ∧
    lenient_unpack_helper 100 lenientUnpackConfig
        (Value.vtuple [Value.vint 1]) [NameTup.nm "item", NameTup.nm "whoop"] =
      .ok (Value.vtuple [Value.vint 1, Value.vstr "<whoop>"]) ∧
    pyTupleAssignNames ["l_item_0", "l_whoop_0"]
        (Value.vtuple [Value.vint 1, Value.vstr "<whoop>"]) [] =
      .ok [("l_item_0", Value.vint 1), ("l_whoop_0", Value.vstr "<whoop>")] :=
  ⟨rfl, rfl, rfl, rfl, rfl, rfl, rfl⟩

/-- Claim C10: for `And(Const(0), Const(23))` the Reference Interpreter
returns the Boolean constant `False` (interpreter.py lines 354-358), while
the host-AST lowering emits a native short-circuit `BoolOp` whose execution
yields the left operand `0` itself (asttransform.py lines 667-670): the two
execution strategies return different values at this input. -/
theorem c10_and_operand_divergence :
    evalExpr 100 defaultTestConfig (IState.make [])
        (.and_ (.const (.vint 0)) (.const (.vint 23))) =
      .ok (Value.vbool false) ∧
    tVisitExpr 100 { frames := [{}], im := {} } 0
        (.and_ (.const (.vint 0)) (.const (.vint 23))) =
      .ok (PyExpr.pboolop true (PyExpr.pnum 0) (PyExpr.pnum 23)) ∧
    pyEvalExpr 100 defaultTestConfig [] []
        (PyExpr.pboolop true (PyExpr.pnum 0) (PyExpr.pnum 23)) =
      .ok (Value.vint 0) ∧
    Value.vbool false ≠ Value.vint 0 :=
  ⟨rfl, rfl, rfl, fun h => nomatch h⟩

/-- Claim C4 counterexample: on the compilation of `grandchildTemplate`,
take F to be the outermost If's body frame (frame 1 of the arena).  Its
grandchild (frame 3) referenced `a` from an outer scope (the root binds
it); the intervening frame (frame 2) resolved nothing, and the binding
frame lies strictly above F, outside F's subtree.  The claim's recursive
description therefore contains the grandchild's `("l_a_0", "a")` entry,
but `iter_required_lookups()` — which only consults *direct* children —
returns the empty mapping. -/
theorem c4_counterexample_grandchild_not_bubbled :
    (toAstRoot 100 grandchildTemplate).map (fun p => iter_required_lookups p.1 1) =
      .ok [] ∧
    (toAstRoot 100 grandchildTemplate).map (fun p => claimedRequiredLookups p.1 1) =
      .ok [("l_a_0", "a")] ∧
    ([] : List (String × String)) ≠ [("l_a_0", "a")] :=
  ⟨rfl, rfl, by decide⟩

theorem pop_push (st : IState) : st.push_frame.pop_frame = st := rfl

theorem exc_bind_ok {ε α β : Type} (a : α) (f : α → Except ε β) :
    (Except.ok a : Except ε α) >>= f = f a := rfl

theorem exc_bind_err {ε α β : Type} (e : ε) (f : α → Except ε β) :
    (Except.error e : Except ε α) >>= f = Except.error e := rfl

/-- Claim C8: executing a For statement whose wrapped iterable produces
zero iterations runs the `else_` body exactly once — the whole statement is
equivalent to a single `visit_block` of the else body in a pushed frame —
and never executes the loop body (the result is independent of the loop
body); with at least one iteration the `else_` body is never executed (the
result equals that of the same For with no else clause). -/
theorem c8_for_else_runs_exactly_when_empty :
    ∀ (k : Nat) (cfg : TKConfig) (st : IState) (target iterE : Node)
      (body es : List Node) (itv : Value),
      evalExpr k cfg st iterE = .ok itv →
      (cfg.wrap_loop itv (if cfg.forloop_parent_access then
          st.resolve_var cfg cfg.forloop_accessor else Value.vnone) = .ok [] →
        execStmt (k + 1) cfg (.for_ target iterE body (some es)) st =
          (do
            let (out, st₄) ← visit_block k cfg es st.push_frame
            pure (out, st₄.pop_frame)) ∧
        ∀ body₂ : List Node,
          execStmt (k + 1) cfg (.for_ target iterE body (some es)) st =
            execStmt (k + 1) cfg (.for_ target iterE body₂ (some es)) st) ∧
      (∀ (pr : Value × Value) (ps : List (Value × Value)),
        cfg.wrap_loop itv (if cfg.forloop_parent_access then
            st.resolve_var cfg cfg.forloop_accessor else Value.vnone) = .ok (pr :: ps) →
        execStmt (k + 1) cfg (.for_ target iterE body (some es)) st =
          execStmt (k + 1) cfg (.for_ target iterE body none) st) := by
  intro k cfg st target iterE body es itv hiter
  constructor
  · intro hwrap
    have hmain : execStmt (k + 1) cfg (.for_ target iterE body (some es)) st =
        (do
          let (out, st₄) ← visit_block k cfg es st.push_frame
          pure (out, st₄.pop_frame)) := by
      rw [execStmt, hiter]
      simp only [exc_bind_ok]
      rw [hwrap]
      simp only [exc_bind_ok, execLoopBody, List.isEmpty_nil, if_true, pop_push]
      cases hvb : visit_block k cfg es st.push_frame with
      | error e => simp [exc_bind_err, hvb]
      | ok p => simp [exc_bind_ok, hvb]
    refine ⟨hmain, ?_⟩
    intro body₂
    rw [hmain]
    have hmain₂ : execStmt (k + 1) cfg (.for_ target iterE body₂ (some es)) st =
        (do
          let (out, st₄) ← visit_block k cfg es st.push_frame
          pure (out, st₄.pop_frame)) := by
      rw [execStmt, hiter]
      simp only [exc_bind_ok]
      rw [hwrap]
      simp only [exc_bind_ok, execLoopBody, List.isEmpty_nil, if_true, pop_push]
      cases hvb : visit_block k cfg es st.push_frame with
      | error e => simp [exc_bind_err, hvb]
      | ok p => simp [exc_bind_ok, hvb]
    rw [hmain₂]
  · intro pr ps hwrap
    rw [execStmt, execStmt, hiter]
    simp only [exc_bind_ok]
    rw [hwrap]
    simp only [exc_bind_ok]
    cases hloop : execLoopBody k cfg target body (pr :: ps) st.push_frame with
    | error e => simp [exc_bind_err, hloop]
    | ok p => simp [exc_bind_ok, hloop, List.isEmpty_cons]

/-- Claim C9: evaluating an Include suppresses a failure exactly when the
template loader's failure is the template-not-found condition
(`TemplateNotFound` or its subclass `TemplatesNotFound`) and the node's
`ignore_missing` flag is set, contributing no output in that case; a
not-found failure without the flag, and every other exception class with or
without the flag, propagates; a successfully loaded template is rendered
inline. -/
theorem c9_include_suppresses_only_missing :
    ∀ (k : Nat) (cfg : TKConfig) (st : IState) (tmplE : Node) (ign : Bool)
      (nameV : Value),
      evalExpr k cfg st tmplE = .ok nameV →
      (∀ e, cfg.get_or_select_template nameV = .error e →
        execStmt (k + 1) cfg (.include_ tmplE ign) st =
          (if e.isTemplateNotFound && ign then .ok ([], st) else .error e)) ∧
      (∀ t, cfg.get_or_select_template nameV = .ok t →
        execStmt (k + 1) cfg (.include_ tmplE ign) st =
          (cfg.yield_from_template t).map (fun chunks => (chunks, st))) := by
  intro k cfg st tmplE ign nameV hname
  constructor
  · intro e hsel
    rw [execStmt, hname]
    simp only [exc_bind_ok]
    rw [hsel]
    by_cases htnf : e.isTemplateNotFound
    · cases ign with
      | true => simp [htnf]; rfl
      | false => simp [htnf]
    · simp [htnf]
  · intro t hsel
    rw [execStmt, hname]
    simp only [exc_bind_ok]
    rw [hsel]
    cases hy : cfg.yield_from_template t with
    | error e => simp [exc_bind_err, hy, Except.map]
    | ok chunks => simp [exc_bind_ok, hy, Except.map]


/-- Witness for C8: over the empty list the loop renders only the else
body (`E`), and over `[7]` the else clause is irrelevant. -/
theorem c8_for_else_runs_exactly_when_empty_witness :
    execStmt 51 defaultTestConfig
        (.for_ (.name "x" .store) (.const (.vlist []))
          [.output [.const (.vstr "B")]] (some [.output [.const (.vstr "E")]]))
        (IState.make []) =
      .ok (["E"], IState.make []) ∧
    execStmt 51 defaultTestConfig
        (.for_ (.name "x" .store) (.const (.vlist [.vint 7]))
          [.output [.name "x" .load]] (some [.output [.const (.vstr "E")]]))
        (IState.make []) =
      execStmt 51 defaultTestConfig
        (.for_ (.name "x" .store) (.const (.vlist [.vint 7]))
          [.output [.name "x" .load]] none)
        (IState.make []) := by
  constructor
  · have h := (c8_for_else_runs_exactly_when_empty 50 defaultTestConfig
      (IState.make []) (.name "x" .store) (.const (.vlist []))
      [.output [.const (.vstr "B")]] [.output [.const (.vstr "E")]]
      (.vlist []) rfl).1 rfl
    exact h.1.trans rfl
  · exact (c8_for_else_runs_exactly_when_empty 50 defaultTestConfig
      (IState.make []) (.name "x" .store) (.const (.vlist [.vint 7]))
      [.output [.name "x" .load]] [.output [.const (.vstr "E")]]
      (.vlist [.vint 7]) rfl).2 (.vint 7, .vhostobj "loopctx") [] rfl

/-- Witness for C9: with a loader that knows no templates, an
ignore-missing Include contributes no output, while the same Include
without the flag propagates the not-found failure. -/
theorem c9_include_suppresses_only_missing_witness :
    execStmt 51 includeMissingConfig
        (.include_ (.const (.vstr "includemissing.html")) true) (IState.make []) =
      .ok ([], IState.make []) ∧
    execStmt 51 includeMissingConfig
        (.include_ (.const (.vstr "includemissing.html")) false) (IState.make []) =
      .error (.templateNotFound "includemissing.html") := by
  constructor
  · have h := (c9_include_suppresses_only_missing 50 includeMissingConfig
      (IState.make []) (.const (.vstr "includemissing.html")) true
      (.vstr "includemissing.html") rfl).1 (.templateNotFound "includemissing.html") rfl
    exact h.trans rfl
  · have h := (c9_include_suppresses_only_missing 50 includeMissingConfig
      (IState.make []) (.const (.vstr "includemissing.html")) false
      (.vstr "includemissing.html") rfl).1 (.templateNotFound "includemissing.html") rfl
    exact h.trans rfl

/-- Claim C4 amended: `iter_required_lookups()` returns the frame's own
direct `requires_lookup` entries updated with, for each DIRECT child frame
only, the alias-unmapped `(id, source-name)` pairs of names the child
referenced from an outer scope; deeper descendants' needs are not bubbled
recursively (they surface only through each descendant's own parent at its
own injection point).  Stated as a lookup characterisation (Python dict
update: last inner pair wins, base otherwise) plus a membership
characterisation of the inner pairs. -/
theorem c4_required_lookups_direct_children :
    ∀ (cs : CState) (fidx : Nat) (f : FrameState),
      cs.frames[fidx]? = some f →
      (∀ k, alGet (iter_required_lookups cs fidx) k =
        (alGet (iter_inner_referenced_vars cs fidx).reverse k).orElse
          (fun _ => alGet f.requires_lookup k)) ∧
      (∀ pr : String × String, pr ∈ iter_inner_referenced_vars cs fidx ↔
        ∃ ci, ci ∈ f.inner_frames ∧ ∃ cf, cs.frames[ci]? = some cf ∧
          ∃ nm lid, (nm, lid) ∈ cf.referenced_identifiers ∧
            nm ∈ cf.from_outer_scope ∧
            pr = ((alGet cf.required_aliases lid).getD lid, nm)) := by
  intro cs fidx f h
  constructor
  · intro k
    rw [iter_required_lookups, h]
    exact alGet_alUpdate f.requires_lookup (iter_inner_referenced_vars cs fidx) k
  · intro pr
    rw [iter_inner_referenced_vars, h]
    simp only [List.mem_flatMap]
    constructor
    · rintro ⟨ci, hci, hmem⟩
      cases hcf : cs.frames[ci]? with
      | none => rw [hcf] at hmem; simp at hmem
      | some cf =>
        rw [hcf] at hmem
        rw [List.mem_filterMap] at hmem
        obtain ⟨⟨nm, lid⟩, hmemref, hfn⟩ := hmem
        by_cases hfo : nm ∈ cf.from_outer_scope
        · simp only [hfo, if_true] at hfn
          exact ⟨ci, hci, cf, hcf, nm, lid, hmemref, hfo, (Option.some.inj hfn).symm⟩
        · simp [hfo] at hfn
    · rintro ⟨ci, hci, cf, hcf, nm, lid, hmemref, hfo, hpr⟩
      refine ⟨ci, hci, ?_⟩
      rw [hcf, List.mem_filterMap]
      exact ⟨(nm, lid), hmemref, by simp [hfo, hpr]⟩

/-- Witness for C4 amended, on `lookupStateExample`: the child's
outer-referenced `b` appears among the inner pairs, and the parent's own
direct entry for `c` survives the update. -/
theorem c4_required_lookups_direct_children_witness :
    ("l_b_0", "b") ∈ iter_inner_referenced_vars lookupStateExample 0 ∧
    alGet (iter_required_lookups lookupStateExample 0) "l_c_0" = some "c" := by
  have h := c4_required_lookups_direct_children lookupStateExample 0 _ rfl
  constructor
  · refine (h.2 ("l_b_0", "b")).mpr ?_
    refine ⟨1, by decide, _, rfl, "b", "l_b_0", ?_, ?_, rfl⟩
    · simp [lookupStateExample]
    · simp [lookupStateExample]
  · rw [h.1 "l_c_0"]
    rfl

/-- Claim C5: the prologue injected before a frame's body is exactly the
alias assignments, then the deferred inner function definitions, then one
runtime-context lookup per `iter_required_lookups()` entry, then the body
(and the dummy generator guard for unbuffered frames); the JavaScript
backend's `write_scope_code` keeps the same alias-then-lookup order; and
every required-lookup entry — the bubbled-up ones included — really gets a
lookup assignment in the injected code. -/
theorem c5_scope_code_injection_order :
    ∀ (cs : CState) (fidx : Nat) (f : FrameState) (body : List PyStmt),
      cs.frames[fidx]? = some f →
      inject_scope_code cs fidx body =
        (f.required_aliases.map fun p => PyStmt.passign p.1 (PyExpr.pname p.2)) ++
        f.inner_functions.flatten ++
        ((iter_required_lookups cs fidx).map fun p =>
          PyStmt.passign p.1 (PyExpr.plookupVar p.2)) ++
        body ++ (if f.buffer = none then [dummyYieldStmt] else []) ∧
      write_scope_code cs fidx =
        (f.required_aliases.map fun p => p.1 ++ " = " ++ p.2) ++
        ((iter_required_lookups cs fidx).map fun p =>
          p.1 ++ " = rts.lookupVar(\"" ++ p.2 ++ "\")") ++
        (f.local_identifiers.filterMap fun p =>
          if p.2 ∈ f.required_aliases.map Prod.fst ++
              (iter_required_lookups cs fidx).map Prod.fst then none else some p.2) ∧
      (∀ kk vv, alGet (iter_required_lookups cs fidx) kk = some vv →
        PyStmt.passign kk (PyExpr.plookupVar vv) ∈ inject_scope_code cs fidx body) := by
  intro cs fidx f body h
  have hinj : inject_scope_code cs fidx body =
      (f.required_aliases.map fun p => PyStmt.passign p.1 (PyExpr.pname p.2)) ++
      f.inner_functions.flatten ++
      ((iter_required_lookups cs fidx).map fun p =>
        PyStmt.passign p.1 (PyExpr.plookupVar p.2)) ++
      body ++ (if f.buffer = none then [dummyYieldStmt] else []) := by
    rw [inject_scope_code, h]
    simp only [foldl_append_map, foldl_append_flatten, List.nil_append]
  refine ⟨hinj, ?_, ?_⟩
  · rw [write_scope_code, h]
    simp only [foldl_append_map, List.nil_append]
  · intro kk vv hget
    rw [hinj]
    have hm : (kk, vv) ∈ iter_required_lookups cs fidx := alGet_mem _ kk vv hget
    have : PyStmt.passign kk (PyExpr.plookupVar vv) ∈
        (iter_required_lookups cs fidx).map fun p =>
          PyStmt.passign p.1 (PyExpr.plookupVar p.2) := by
      rw [List.mem_map]
      exact ⟨(kk, vv), hm, rfl⟩
    simp only [List.mem_append]
    left; left; right
    exact this

/-- Witness for C5, on `injectStateExample` (one alias, one deferred inner
function, one lookup): the injected prologue is the alias assignment, then
the function statement, then the lookup, then the body, then the dummy
guard; the JavaScript declaration items keep the alias-then-lookup order;
and the lookup entry has its assignment in the injected code. -/
theorem c5_scope_code_injection_order_witness :
    inject_scope_code injectStateExample 0 [PyStmt.ppass] =
      [PyStmt.passign "l_a_1" (PyExpr.pname "l_a_0"), PyStmt.ppass,
       PyStmt.passign "l_x_0" (PyExpr.plookupVar "x"), PyStmt.ppass,
       dummyYieldStmt] ∧
    write_scope_code injectStateExample 0 =
      ["l_a_1 = l_a_0", "l_x_0 = rts.lookupVar(\"x\")"] ∧
    PyStmt.passign "l_x_0" (PyExpr.plookupVar "x") ∈
      inject_scope_code injectStateExample 0 [PyStmt.ppass] := by
  have h := c5_scope_code_injection_order injectStateExample 0 _ [PyStmt.ppass] rfl
  exact ⟨h.1.trans rfl, h.2.1.trans rfl, h.2.2 "l_x_0" "x" rfl⟩

theorem c2_alias_general :
    ∀ (cs : CState) (fidx gidx : Nat) (nm oldId : String) (ctx : NCtx),
      findIdent cs fidx nm = some (gidx, oldId) →
      gidx ≠ fidx →
      ctx ≠ NCtx.load →
      cs.im.short_ids = false →
      (∀ j, j ≠ fidx → (visit_Name cs fidx nm ctx).frames[j]? = cs.frames[j]?) ∧
      (∀ f, cs.frames[fidx]? = some f →
        ∃ f', (visit_Name cs fidx nm ctx).frames[fidx]? = some f' ∧
          alGet f'.required_aliases ("l_" ++ nm ++ "_" ++ Nat.repr cs.im.index) =
            some oldId ∧
          alGet f'.local_identifiers nm =
            some ("l_" ++ nm ++ "_" ++ Nat.repr cs.im.index)) := by
  intro cs fidx gidx nm oldId ctx hfind hg hctx hshort
  rw [visit_Name, hfind]
  simp only [hg, hctx, IdentManager.override, IdentManager.next_num,
    IdentManager.encode, hshort, if_true, if_false, Bool.false_eq_true,
    ite_true, ite_false, ne_eq, not_false_eq_true]
  constructor
  · intro j hj
    rw [CState.updFrame]
    cases h : cs.frames[fidx]? with
    | none => rfl
    | some f =>
      simp only [CState.setFrame]
      exact List.getElem?_set_ne (by omega)
  · intro f hf
    rw [CState.updFrame, hf]
    simp only [CState.setFrame]
    have hlt : fidx < cs.frames.length := by
      by_contra hge
      rw [List.getElem?_eq_none (by omega)] at hf
      exact Option.noConfusion hf
    refine ⟨_, List.getElem?_set_self hlt, ?_, ?_⟩
    · simp [alGet_alInsert]
    · simp [alGet_alInsert]

/-- Claim C2: the concrete alias-correctness template (`test_if_scoping`)
renders `42;23;42` — the assignment inside the always-true If branch never
leaks into the enclosing frame's binding of `a` — and, at the tracking
level, a store of a name found in an ancestor frame mints a fresh alias
identifier (`override`, embedding the manager's current counter), records
it in the storing frame's `required_aliases` mapped to the ancestor's
identifier, rebinds the name locally to the fresh id, leaves every other
frame (the ancestor included) untouched, and the fresh id differs from any
ancestor identifier that was encoded for the same name with a different
counter value. -/
theorem c2_soft_frame_store_mints_alias :
    interpRun defaultTestConfig 100 aliasTemplate [("a", Value.vint 42)] =
      .ok ["42", ";", "23", ";", "42"] ∧
    String.join ["42", ";", "23", ";", "42"] = "42;23;42" ∧
    (∀ (cs : CState) (fidx gidx : Nat) (nm oldId : String) (ctx : NCtx),
      findIdent cs fidx nm = some (gidx, oldId) →
      gidx ≠ fidx →
      ctx ≠ NCtx.load →
      cs.im.short_ids = false →
      (∀ j, j ≠ fidx → (visit_Name cs fidx nm ctx).frames[j]? = cs.frames[j]?) ∧
      (∀ f, cs.frames[fidx]? = some f →
        ∃ f', (visit_Name cs fidx nm ctx).frames[fidx]? = some f' ∧
          alGet f'.required_aliases ("l_" ++ nm ++ "_" ++ Nat.repr cs.im.index) =
            some oldId ∧
          alGet f'.local_identifiers nm =
            some ("l_" ++ nm ++ "_" ++ Nat.repr cs.im.index)) ∧
      (∀ k, oldId = "l_" ++ nm ++ "_" ++ Nat.repr k → k ≠ cs.im.index →
        ("l_" ++ nm ++ "_" ++ Nat.repr cs.im.index) ≠ oldId)) := by
  refine ⟨rfl, rfl, ?_⟩
  intro cs fidx gidx nm oldId ctx hfind hg hctx hshort
  obtain ⟨h1, h2⟩ := c2_alias_general cs fidx gidx nm oldId ctx hfind hg hctx hshort
  refine ⟨h1, h2, ?_⟩
  intro k hk hkne h
  rw [hk] at h
  exact hkne (long_form_num_inj h).symm

/-- Witness for C2's tracking part: on `storeStateExample` (root binds `a`
to `l_a_0`, derived child frame 1), tracking `Name("a", store)` in frame 1
leaves the root frame unchanged, records the alias `l_a_1 ↦ l_a_0` in the
child, rebinds `a` locally to `l_a_1`, and `l_a_1 ≠ l_a_0`. -/
theorem c2_soft_frame_store_mints_alias_witness :
    findIdent storeStateExample 1 "a" = some (0, "l_a_0") ∧
    (visit_Name storeStateExample 1 "a" NCtx.store).frames[0]? =
      storeStateExample.frames[0]? ∧
    (∃ f', (visit_Name storeStateExample 1 "a" NCtx.store).frames[1]? = some f' ∧
      alGet f'.required_aliases "l_a_1" = some "l_a_0" ∧
      alGet f'.local_identifiers "a" = some "l_a_1") ∧
    ("l_a_1" : String) ≠ "l_a_0" := by
  obtain ⟨-, -, hgen⟩ := c2_soft_frame_store_mints_alias
  obtain ⟨h1, h2, h3⟩ := hgen storeStateExample 1 0 "a" "l_a_0" NCtx.store rfl
    (by decide) (by decide) rfl
  refine ⟨rfl, h1 0 (by decide), ?_, ?_⟩
  · exact h2 { parent := some 0 } rfl
  · exact h3 0 rfl (by decide)

/-- Claim C6 amended: the identifier strings returned by any two distinct
counter-consuming calls (`override`, `temporary`) of one compilation run
are pairwise distinct; `encode` with the default suffix, however, derives
the identifier purely from the source name, so repeated `encode` calls for
the same name return the identical string (refuting the claim as stated
for `encode`). -/
theorem c6_amended_fresh_calls_distinct :
    (∀ (m : IdentManager) (ops : List MOp),
      (freshOutputs m ops).Pairwise (· ≠ ·)) ∧
    (∀ (m : IdentManager) (nm : String), m.short_ids = false →
      (m.encode nm 0).1 = ((m.encode nm 0).2.encode nm 0).1) := by
  constructor
  · intro m ops
    exact freshOutputs_pairwise_ne ops m
  · intro m nm h
    simp [IdentManager.encode, h]

/-- Witness for C6 amended: a concrete run with two overrides of the same
name and a temporary produces pairwise distinct identifiers, and the
default manager repeats itself on `encode`. -/
theorem c6_amended_fresh_calls_distinct_witness :
    (freshOutputs { } [MOp.override "x", MOp.temporary, MOp.override "x"]).Pairwise
      (· ≠ ·) ∧
    (IdentManager.encode { } "x" 0).1 = ((IdentManager.encode { } "x" 0).2.encode "x" 0).1 :=
  ⟨c6_amended_fresh_calls_distinct.1 { } [MOp.override "x", MOp.temporary, MOp.override "x"],
   c6_amended_fresh_calls_distinct.2 { } "x" rfl⟩

/-- Claim C6 counterexample: `encode` with the default suffix derives the
identifier purely from the source name, so two distinct `encode` calls on
the same manager return the identical string `l_x_0`; and one real
compilation makes two such calls — lowering `twoBranchTemplate`, both the
body frame and the else frame ask the shared manager to encode `x` and both
receive `l_x_0`. -/
theorem c6_counterexample_encode_collision :
    (IdentManager.encode {} "x" 0).1 = "l_x_0" ∧
    ((IdentManager.encode {} "x" 0).2.encode "x" 0).1 = "l_x_0" ∧
    (toAstRoot 100 twoBranchTemplate).map
        (fun p => p.1.frames.map fun f => f.local_identifiers) =
      .ok [[], [("x", "l_x_0")], [("x", "l_x_0")]] :=
  ⟨rfl, rfl, rfl⟩

end TTK
